import Mathlib

/-!
# CarAI: track-progress tracker, kill predicates, controller mapping, generation transition

A shallow embedding of `src/Simulation/Vehicle.cpp` and `src/Simulation/Simulation.cpp`;
line numbers in section titles and comments refer to those files.

Modelling conventions.

* `btScalar` / `float` / `double` values are modelled by exact rationals `ℚ`.  Rounding is
  not modelled: every statement below is about the arithmetic the source text denotes, and a
  decimal literal such as `0.6f` or `1e-6f` stands for its decimal value.
* The square root used by `btVector3::norm` is not a rational function, so it is a parameter
  `sqrt : ℚ → ℚ` of every definition that takes a norm.  Theorems hold for every such function
  unless a hypothesis about it is written down.
* Where rounding decides a statement, the tracker is taken a second time with the vector and
  scalar operations as a parameter (`Arith`); the unrounded operations are the instance
  `Arith.exact` and `Arith.binary32` rounds every result to 24 significant bits.
* C++ `int` fields are `Int`; container indices are `Nat`.
* State held by the physics engine (chassis origin, linear velocity) is carried as plain
  fields of the vehicle record; the engine itself is an external collaborator.
-/

namespace CarAI

/-! ## Vectors -/

/-- Bullet's three-component vector, restricted to the operations the tracker uses. -/
structure btVector3 where
  x : ℚ
  y : ℚ
  z : ℚ
deriving DecidableEq

namespace btVector3

/-- Componentwise `a + b`. -/
def add (a b : btVector3) : btVector3 := ⟨a.x + b.x, a.y + b.y, a.z + b.z⟩

/-- Componentwise `a - b`. -/
def sub (a b : btVector3) : btVector3 := ⟨a.x - b.x, a.y - b.y, a.z - b.z⟩

/-- Scaling `v * s`. -/
def mul (v : btVector3) (s : ℚ) : btVector3 := ⟨v.x * s, v.y * s, v.z * s⟩

/-- Scaling `v / s`, as in `n /= len` (the case `s = 0` is handled in `Track.eligible`). -/
def div (v : btVector3) (s : ℚ) : btVector3 := ⟨v.x / s, v.y / s, v.z / s⟩

/-- The inner product `a.dot(b)`. -/
def dot (a b : btVector3) : ℚ := a.x * b.x + a.y * b.y + a.z * b.z

/-- The Euclidean length `v.norm()`, i.e. `btSqrt(v.dot(v))`. -/
def norm (sqrt : ℚ → ℚ) (v : btVector3) : ℚ := sqrt (v.dot v)

end btVector3

/-! ## Vehicle progress state -/

/-- The part of `Vehicle` that `updateTrackPerformance` and the kill checks read or write.
`origin` is `m_vehicle->getChassisWorldTransform().getOrigin()`, `linearVelocity` is
`m_vehicle->getRigidBody()->getLinearVelocity()`; `m_birthTime` is the value behind the
accessor `birthTime()`. -/
structure Vehicle where
  origin : btVector3
  linearVelocity : btVector3
  m_bestSegment : Int
  m_curSegment : Int
  m_travelDir : Int
  m_bestDistance : ℚ
  m_curDistance : ℚ
  m_alive : Bool
  m_birthTime : ℚ
deriving DecidableEq

/-- The constructor `Vehicle::Vehicle`: all progress fields zero, alive. -/
def Vehicle.mk0 (origin vel : btVector3) (birth : ℚ) : Vehicle :=
  { origin := origin, linearVelocity := vel,
    m_bestSegment := 0, m_curSegment := 0, m_travelDir := 0,
    m_bestDistance := 0, m_curDistance := 0, m_alive := true, m_birthTime := birth }

/-- The accessor `curTrackSegment()`. -/
def Vehicle.curTrackSegment (v : Vehicle) : Int := v.m_curSegment

/-- The accessor `curTrackDistance()`. -/
def Vehicle.curTrackDistance (v : Vehicle) : ℚ := v.m_curDistance

/-- The accessor `bestTrackDistance()`. -/
def Vehicle.bestTrackDistance (v : Vehicle) : ℚ := v.m_bestDistance

/-- The mutator `kill()`. -/
def Vehicle.kill (v : Vehicle) : Vehicle := { v with m_alive := false }

/-! ## Nearest-segment search (`Vehicle::updateTrackPerformance`, lines 127-161) -/

/-- The track as the tracker sees it: `sim->trackSegments()` and `sim->trackSegmentDist()`. -/
structure Track where
  segments : List btVector3
  distances : List ℚ
deriving DecidableEq

/-- Element access `segments[i]` (the source never reads past the end; the model reads the
zero vector there). -/
def Track.seg (t : Track) (i : Nat) : btVector3 := t.segments.getD i ⟨0, 0, 0⟩

/-- Element access `distances[i]` (0 past the end, which the source never reads when the
table is as long as the waypoint list). -/
def Track.dist (t : Track) (i : Nat) : ℚ := t.distances.getD i 0

/-- The value `nsegs`. -/
def Track.nsegs (t : Track) : Nat := t.segments.length

/-- The unnormalised direction `segments[(i + 1) % nsegs] - segments[i]`. -/
def Track.dir (t : Track) (i : Nat) : btVector3 :=
  (t.seg ((i + 1) % t.nsegs)).sub (t.seg i)

/-- The value `len = n.norm()` of iteration `i`. -/
def Track.len (sqrt : ℚ → ℚ) (t : Track) (i : Nat) : ℚ := (t.dir i).norm sqrt

/-- The value of `n` after `n /= len`. -/
def Track.unitDir (sqrt : ℚ → ℚ) (t : Track) (i : Nat) : btVector3 :=
  (t.dir i).div (t.len sqrt i)

/-- The value `p = (vpos - a).dot(n)` of iteration `i`, without rounding (`Arith.proj` is
the same expression in the arithmetic of the build). -/
def Track.proj (sqrt : ℚ → ℚ) (t : Track) (vpos : btVector3) (i : Nat) : ℚ :=
  (vpos.sub (t.seg i)).dot (t.unitDir sqrt i)

/-- The guard `0.0f <= p && p <= len` of iteration `i`.

When `len` is zero the source divides by zero: every component of `n` becomes NaN or an
infinity, `p` is NaN or an infinity, and the conjunction is false for each of those values.
The conjunct `len ≠ 0` records that outcome. -/
def Track.eligible (sqrt : ℚ → ℚ) (t : Track) (vpos : btVector3) (i : Nat) : Prop :=
  t.len sqrt i ≠ 0 ∧ 0 ≤ t.proj sqrt vpos i ∧ t.proj sqrt vpos i ≤ t.len sqrt i

instance (sqrt : ℚ → ℚ) (t : Track) (vpos : btVector3) (i : Nat) :
    Decidable (t.eligible sqrt vpos i) := by
  unfold Track.eligible; infer_instance

/-- The value `segProj = a + n * p` of iteration `i`. -/
def Track.segProj (sqrt : ℚ → ℚ) (t : Track) (vpos : btVector3) (i : Nat) : btVector3 :=
  (t.seg i).add ((t.unitDir sqrt i).mul (t.proj sqrt vpos i))

/-- The value `segDist = (segProj - vpos).norm()` of iteration `i`, without rounding
(`Arith.segDist` is the same expression in the arithmetic of the build). -/
def Track.segDist (sqrt : ℚ → ℚ) (t : Track) (vpos : btVector3) (i : Nat) : ℚ :=
  ((t.segProj sqrt vpos i).sub vpos).norm sqrt

/-- The locals of the search loop. -/
structure Nearest where
  nearestSeg : Int
  nearestSegDist : ℚ
  nearestSegProj : btVector3
  trackDist : ℚ
deriving DecidableEq

/-- The locals before the loop (`nearestSegProj` is uninitialised in the source and is never
read before it is written). -/
def Nearest.init : Nearest :=
  { nearestSeg := -1, nearestSegDist := -1, nearestSegProj := ⟨0, 0, 0⟩, trackDist := -1 }

/-- One iteration of the loop body for index `i`. -/
def searchStep (sqrt : ℚ → ℚ) (t : Track) (vpos : btVector3) (st : Nearest) (i : Nat) :
    Nearest :=
  if t.eligible sqrt vpos i then
    if st.nearestSeg < 0 ∨ t.segDist sqrt vpos i < st.nearestSegDist then
      { nearestSeg := (i : Int),
        nearestSegProj := t.segProj sqrt vpos i,
        nearestSegDist := t.segDist sqrt vpos i,
        trackDist := t.dist i + t.proj sqrt vpos i }
    else st
  else st

/-- The loop `for (int i = 0; i < k; ++i)` run from the initial locals. -/
def searchUpTo (sqrt : ℚ → ℚ) (t : Track) (vpos : btVector3) (k : Nat) : Nearest :=
  (List.range k).foldl (searchStep sqrt t vpos) Nearest.init

/-- The whole search: the loop up to `nsegs`. -/
def nearestSegment (sqrt : ℚ → ℚ) (t : Track) (vpos : btVector3) : Nearest :=
  searchUpTo sqrt t vpos t.nsegs

/-- The literal `1e-6f`. -/
def velEps : ℚ := 1 / 1000000

/-- The travel-direction update (lines 171-176): an `if / else if / else if` chain with no
final `else`. -/
def travelDirUpdate (vel n : btVector3) (old : Int) : Int :=
  if vel.dot vel < velEps then 0
  else if vel.dot n > 0 then 1
  else if vel.dot n < 0 then -1
  else old

/-- The method `Vehicle::updateTrackPerformance`. -/
def Vehicle.updateTrackPerformance (sqrt : ℚ → ℚ) (t : Track) (v : Vehicle) : Vehicle :=
  let r := nearestSegment sqrt t v.origin
  if r.nearestSeg ≥ 0 then
    let n := (t.seg ((r.nearestSeg.toNat + 1) % t.nsegs)).sub (t.seg r.nearestSeg.toNat)
    { v with
      m_travelDir := travelDirUpdate v.linearVelocity n v.m_travelDir,
      m_bestSegment := max v.m_bestSegment r.nearestSeg,
      m_bestDistance := max v.m_bestDistance r.trackDist,
      m_curSegment := r.nearestSeg,
      m_curDistance := r.trackDist }
  else v

/-- The method `Vehicle::update`.  Its sensor refresh writes only the sensor records and its
controller call writes only steering and engine force into the physics engine; the progress
fields are touched by `updateTrackPerformance` alone. -/
def Vehicle.update (sqrt : ℚ → ℚ) (t : Track) (v : Vehicle) : Vehicle :=
  v.updateTrackPerformance sqrt t

/-! ## Controller (`VehicleController`, `VehicleControllerNeuralNet::update`) -/

/-- The limits held by `VehicleController`. -/
structure VehicleController where
  m_steerMax : ℚ
  m_engineForceFwdMax : ℚ
  m_engineForceRevMax : ℚ
  m_brakeMax : ℚ
deriving DecidableEq

/-- The constructor `VehicleController::VehicleController`: `0.6f`, `5000.0f`, `-3000.0f`,
`500.0f`. -/
def VehicleController.mk0 : VehicleController :=
  { m_steerMax := 6 / 10, m_engineForceFwdMax := 5000, m_engineForceRevMax := -3000,
    m_brakeMax := 500 }

/-- What the controller hands to the physics vehicle: `setSteeringValue(steer, 0)` and
`(steer, 1)`, `applyEngineForce(force, 2)` and `(force, 3)`. -/
structure Actuation where
  steer : ℚ
  force : ℚ
deriving DecidableEq

/-- The local `steer = output[0] * m_steerMax`. -/
def VehicleController.steerOf (c : VehicleController) (o0 : ℚ) : ℚ := o0 * c.m_steerMax

/-- The local `force`: first `output[1] * 0.5f + 0.5f`, then the interpolation
`m_engineForceRevMax + (m_engineForceFwdMax - m_engineForceRevMax) * force`. -/
def VehicleController.forceOf (c : VehicleController) (o1 : ℚ) : ℚ :=
  let force := o1 * (1 / 2) + 1 / 2
  c.m_engineForceRevMax + (c.m_engineForceFwdMax - c.m_engineForceRevMax) * force

/-- The method `VehicleControllerNeuralNet::update`.  `compute` is
`m_vehicle->neuralNetwork()->compute(input, output)`: `none` when it returns false,
`some output` otherwise.  The result is the actuation applied, `none` when only the error
message is printed.  An `output` shorter than two entries is read as 0 where the source
would read past the end. -/
def VehicleControllerNeuralNet.update (c : VehicleController)
    (compute : List ℚ → Option (List ℚ)) (input : List ℚ) : Option Actuation :=
  match compute input with
  | some output =>
    some { steer := c.steerOf (output.getD 0 0), force := c.forceOf (output.getD 1 0) }
  | none => none

/-- The value `VehicleControllerNeuralNet::dof()`. -/
def VehicleControllerNeuralNet.dof : Nat := 2

/-! ## Simulation state -/

/-- The fields of `Vehicle::Chromosome` that `Simulation.cpp` uses: the owning vehicle
(a pointer in the source, an index into `m_vehicles` here) and the gene vector. -/
structure Chromosome where
  vehicle : Nat
  genes : List ℚ
deriving DecidableEq

/-- The fields of `Simulation::Desc` used when the waypoints are placed. -/
structure Desc where
  trackScale : ℚ
  trackGroundLevel : ℚ
deriving DecidableEq

/-- The fields of `Simulation` that the modelled methods read or write. -/
structure Simulation where
  m_vehicles : List Vehicle
  m_trackSegments : List btVector3
  m_trackSegmentDist : List ℚ
  m_avgDrivenDistance : ℚ
  m_chromosomes : List Chromosome
  m_chromosomesNext : List Chromosome
deriving DecidableEq

/-- The pair `trackSegments()`, `trackSegmentDist()`. -/
def Simulation.track (s : Simulation) : Track :=
  { segments := s.m_trackSegments, distances := s.m_trackSegmentDist }

/-- Collaborators whose code is outside the modelled files. -/
structure Collaborators where
  /-- The function `btSqrt`. -/
  btSqrt : ℚ → ℚ
  /-- The call `m_bullet->world->stepSimulation(dt, 10)`: it moves the vehicles and, through
  `subtickCallback`, may kill some of them. -/
  stepSimulation : ℚ → List Vehicle → List Vehicle
  /-- The value `glfwGetTime()` returns while vehicle `i` is processed. -/
  glfwGetTime : Nat → ℚ
  /-- The method `Chromosome::readGenesFromVehicle`: the genes of a vehicle's network. -/
  readGenes : Vehicle → List ℚ
  /-- The method `Chromosome::transferGenesToVehicle`. -/
  transferGenes : List ℚ → Vehicle → Vehicle
  /-- The method `EvolutionProcess::computeNewPopulation(current, next)`.  Every chromosome
  holds `&m_avgDrivenDistance`; the first argument is the value found there during the call.
  The result is the two populations after the call. -/
  computeNewPopulation : ℚ → List Chromosome → List Chromosome →
    List Chromosome × List Chromosome
  /-- Origin and linear velocity of the body `createVehiclePhysics` returns. -/
  createVehiclePhysics : btVector3 × btVector3

/-! ## Track loading (`Simulation::initTrack`, lines 219-253) -/

/-- The call `std::vector<float>::resize(n, val)`. -/
def resize (l : List ℚ) (n : Nat) (val : ℚ) : List ℚ :=
  l.take n ++ List.replicate (n - l.length) val

/-- Lines 229-232: scale the parsed vertex, stretch x by `w` and z by `h`, lift y. -/
def placeVertex (desc : Desc) (w h : Nat) (v : btVector3) : btVector3 :=
  let p := v.mul desc.trackScale
  { x := p.x * (w : ℚ), y := p.y + desc.trackGroundLevel, z := p.z * (h : ℚ) }

/-- One iteration of the accumulation loop: `accum += (seg[i] - seg[i-1]).norm()` and
`dist[i] = accum`. -/
def distStep (sqrt : ℚ → ℚ) (segs : List btVector3) (st : ℚ × List ℚ) (i : Nat) :
    ℚ × List ℚ :=
  let accum := st.1 + ((segs.getD i ⟨0, 0, 0⟩).sub (segs.getD (i - 1) ⟨0, 0, 0⟩)).norm sqrt
  (accum, st.2.set i accum)

/-- Lines 243-249: resize the table, then `for (size_t i = 1; i < size; ++i)`. -/
def accumulateDist (sqrt : ℚ → ℚ) (segs : List btVector3) (old : List ℚ) : List ℚ :=
  ((List.range' 1 (segs.length - 1)).foldl (distStep sqrt segs)
    (0, resize old segs.length 0)).2

/-- The waypoint part of `Simulation::initTrack`.  `file` is `none` when the file cannot be
opened; otherwise it lists, per line, what `sscanf(line, "v %f %f %f", ...)` parsed
(`none` when it did not return 3). -/
def Simulation.initTrack (sqrt : ℚ → ℚ) (desc : Desc) (w h : Nat)
    (file : Option (List (Option btVector3))) (s : Simulation) : Simulation :=
  match file with
  | none => { s with m_trackSegments := [] }
  | some lines =>
    let segs := ((lines.filterMap id).map (placeVertex desc w h)).reverse
    { s with m_trackSegments := segs,
             m_trackSegmentDist := accumulateDist sqrt segs s.m_trackSegmentDist }

/-! ## Generation transition (`Simulation::applyEvolution`, `Simulation::resetVehicles`) -/

/-- Lines 334-344: on first use one chromosome pair is created per vehicle. -/
def Simulation.ensureChromosomes (s : Simulation) : Simulation :=
  if s.m_chromosomes.isEmpty then
    { s with
      m_chromosomes := (List.range s.m_vehicles.length).map (fun i => ⟨i, []⟩),
      m_chromosomesNext := (List.range s.m_vehicles.length).map (fun i => ⟨i, []⟩) }
  else s

/-- One iteration of the loop at lines 347-353, on the pair (running sum, chromosomes). -/
def avgStep (ext : Collaborators) (vehicles : List Vehicle) (st : ℚ × List Chromosome) (i : Nat) :
    ℚ × List Chromosome :=
  match st.2.get? i with
  | none => st
  | some c =>
    match vehicles.get? c.vehicle with
    | none => st
    | some v => (st.1 + v.curTrackDistance, st.2.set i { c with genes := ext.readGenes v })

/-- Lines 346-353: the sum of `curTrackDistance()` and the re-read chromosomes. -/
def Simulation.sumDriven (ext : Collaborators) (s : Simulation) : ℚ × List Chromosome :=
  (List.range s.m_vehicles.length).foldl (avgStep ext s.m_vehicles) (0, s.m_chromosomes)

/-- One iteration of the loop at lines 359-363. -/
def transferStep (ext : Collaborators) (chromosomes : List Chromosome) (vehicles : List Vehicle)
    (i : Nat) : List Vehicle :=
  match chromosomes.get? i with
  | none => vehicles
  | some c =>
    match vehicles.get? c.vehicle with
    | none => vehicles
    | some v => vehicles.set c.vehicle (ext.transferGenes c.genes v)

/-- The method `Simulation::applyEvolution`. -/
def Simulation.applyEvolution (ext : Collaborators) (s : Simulation) : Simulation :=
  let n := s.m_vehicles.length
  let s1 := s.ensureChromosomes
  let st := s1.sumDriven ext
  let avg := st.1 / (n : ℚ)
  let pops := ext.computeNewPopulation avg st.2 s1.m_chromosomesNext
  { s1 with
    m_avgDrivenDistance := avg,
    m_chromosomes := pops.2,
    m_chromosomesNext := pops.1,
    m_vehicles := (List.range n).foldl (transferStep ext pops.2) s1.m_vehicles }

/-- Modelled from the spec: `Vehicle::reset` is defined in `Vehicle.h`, which is not among the
sources.  The spec says it "restores AgentProgressState to initial values and re-seeds birth
time". -/
def Vehicle.reset (now : ℚ) (v : Vehicle) : Vehicle :=
  { v with m_bestSegment := 0, m_curSegment := 0, m_travelDir := 0,
           m_bestDistance := 0, m_curDistance := 0, m_alive := true, m_birthTime := now }

/-- The method `Simulation::resetVehicles`: reset each vehicle and give it a new physics
body. -/
def Simulation.resetVehicles (ext : Collaborators) (s : Simulation) : Simulation :=
  { s with m_vehicles := s.m_vehicles.enum.map (fun iv =>
      { Vehicle.reset (ext.glfwGetTime iv.1) iv.2 with
        origin := ext.createVehiclePhysics.1, linearVelocity := ext.createVehiclePhysics.2 }) }

/-! ## The tick (`Simulation::update`) -/

/-- Lines 146-157 for one vehicle: update it if alive, then apply the two kill checks. -/
def updateVehicle (sqrt : ℚ → ℚ) (t : Track) (now : ℚ) (v : Vehicle) : Vehicle :=
  if v.m_alive then
    let v1 := v.update sqrt t
    let v2 := if v1.curTrackSegment < 0 then v1.kill else v1
    if now - v2.m_birthTime > 20 ∧ v2.curTrackSegment < 2 then v2.kill else v2
  else v

/-- One iteration of the loop at lines 142-163 on the pair (`numAlive`, `m_vehicles`).
Disabling the physics body of a dead vehicle is left to the physics engine. -/
def tickStep (ext : Collaborators) (t : Track) (st : Int × List Vehicle) (i : Nat) :
    Int × List Vehicle :=
  match st.2.get? i with
  | none => st
  | some v =>
    let v1 := updateVehicle ext.btSqrt t (ext.glfwGetTime i) v
    (if v1.m_alive then st.1 + 1 else st.1, st.2.set i v1)

/-- The loop `for (int i = 0; i < n; ++i)` at lines 139-163, started with `numAlive = 0` on
the vehicles the physics step left behind. -/
def tickLoop (ext : Collaborators) (t : Track) (vs : List Vehicle) : Int × List Vehicle :=
  (List.range vs.length).foldl (tickStep ext t) (0, vs)

/-- The procedures `Simulation::update` may call after its loop. -/
inductive Call where
  | applyEvolution
  | resetVehicles
deriving DecidableEq

/-- The method `Simulation::update`, returning the new state and the list of calls made at
lines 166-171. -/
def Simulation.update (ext : Collaborators) (dt : ℚ) (s : Simulation) : Simulation × List Call :=
  let st := tickLoop ext s.track (ext.stepSimulation dt s.m_vehicles)
  let s1 := { s with m_vehicles := st.2 }
  if st.1 = 0 then
    ((s1.applyEvolution ext).resetVehicles ext, [Call.applyEvolution, Call.resetVehicles])
  else (s1, [])

/-! ## Concrete data used to evaluate the definitions -/

/-- A square root that is exact on squares of rationals (numerator and denominator are
rooted separately with the integer square root). -/
def sqrtQ (q : ℚ) : ℚ := (Nat.sqrt q.num.toNat : ℚ) / (Nat.sqrt q.den : ℚ)

/-- A track of six axis-parallel segments in which segment 3 crosses segment 0 at `(1,0,0)`. -/
def crossingSegments : List btVector3 :=
  [⟨0, 0, 0⟩, ⟨2, 0, 0⟩, ⟨2, 1, 0⟩, ⟨1, 1, 0⟩, ⟨1, -1, 0⟩, ⟨0, -1, 0⟩]

/-- The crossing track with the table `initTrack` computes for it. -/
def crossingTrack : Track :=
  { segments := crossingSegments, distances := accumulateDist sqrtQ crossingSegments [] }

/-- A fresh vehicle at the middle of segment 1 of the crossing track, moving along it. -/
def sideVehicle : Vehicle := Vehicle.mk0 ⟨2, 1 / 2, 0⟩ ⟨0, 1, 0⟩ 0

/-- A fresh vehicle away from every segment of the crossing track. -/
def farVehicle : Vehicle := Vehicle.mk0 ⟨5, 5, 0⟩ ⟨1, 0, 0⟩ 0

/-- A fresh vehicle at the middle of segment 1 of the crossing track, moving across it. -/
def acrossVehicle : Vehicle := Vehicle.mk0 ⟨2, 1 / 2, 0⟩ ⟨1, 0, 0⟩ 0

/-- Collaborators for evaluation: the exact square root, a physics step that moves nothing,
a clock that reads `20.0001`, chromosomes without genes and an evolution step that returns
both populations as they are. -/
def stillWorld : Collaborators :=
  { btSqrt := sqrtQ,
    stepSimulation := fun _ vs => vs,
    glfwGetTime := fun _ => 20 + 1 / 10000,
    readGenes := fun _ => [],
    transferGenes := fun _ v => v,
    computeNewPopulation := fun _ cur next => (cur, next),
    createVehiclePhysics := (⟨0, 1, 0⟩, ⟨0, 0, 0⟩) }

/-- Four lines of a waypoint file as parsed, the second of which is not a vertex line. -/
def sampleLines : List (Option btVector3) :=
  [some ⟨3, 0, 4⟩, none, some ⟨0, 0, 0⟩, some ⟨0, 0, 1⟩]

/-- The state before the constructor calls `initTrack`: every container empty. -/
def emptySim : Simulation :=
  { m_vehicles := [], m_trackSegments := [], m_trackSegmentDist := [],
    m_avgDrivenDistance := 0, m_chromosomes := [], m_chromosomesNext := [] }

/-- A vehicle that first reached the middle of segment 4 of the crossing track, was then
carried back to the middle of segment 1, and was killed there. -/
def returnedVehicle : Vehicle :=
  ({ (Vehicle.mk0 ⟨1 / 2, -1, 0⟩ ⟨0, 0, 0⟩ 0).updateTrackPerformance sqrtQ crossingTrack with
      origin := ⟨2, 1 / 2, 0⟩ }.updateTrackPerformance sqrtQ crossingTrack).kill

/-- A population of two dead vehicles on the crossing track at its first transition. -/
def returnedSim : Simulation :=
  { m_vehicles :=
      [returnedVehicle, (sideVehicle.updateTrackPerformance sqrtQ crossingTrack).kill],
    m_trackSegments := crossingTrack.segments, m_trackSegmentDist := crossingTrack.distances,
    m_avgDrivenDistance := 0, m_chromosomes := [], m_chromosomesNext := [] }

/-- A fresh vehicle at the middle of segment 2 of the crossing track. -/
def thirdVehicle : Vehicle := Vehicle.mk0 ⟨3 / 2, 1, 0⟩ ⟨-1, 0, 0⟩ 0

/-- Two living vehicles on the crossing track, on segments 1 and 2. -/
def timedSim : Simulation :=
  { m_vehicles := [sideVehicle, thirdVehicle],
    m_trackSegments := crossingTrack.segments, m_trackSegmentDist := crossingTrack.distances,
    m_avgDrivenDistance := 0, m_chromosomes := [], m_chromosomesNext := [] }

/-! ## The tracker in the arithmetic of the build

`btVector3` and `btScalar` come from the Bullet library, whose headers are not part of the
repository, and the compiler rounds every scalar result to `float`.  The definitions of this
section repeat the tracker with the vector and scalar operations as a parameter; the
definitions above are the instance `Arith.exact`. -/

/-- The operations the tracker uses on `btVector3` and `btScalar`, as the build provides
them.  Comparisons and `std::max` are exact on the values they receive. -/
structure Arith where
  /-- The operator `a + b` on vectors. -/
  add : btVector3 → btVector3 → btVector3
  /-- The operator `a - b` on vectors. -/
  sub : btVector3 → btVector3 → btVector3
  /-- The operator `v * s`. -/
  mul : btVector3 → ℚ → btVector3
  /-- The operator `v / s`, as in `n /= len`. -/
  div : btVector3 → ℚ → btVector3
  /-- The method `a.dot(b)`. -/
  dot : btVector3 → btVector3 → ℚ
  /-- The method `v.norm()`. -/
  norm : btVector3 → ℚ
  /-- The scalar sum, as in `distances[i] + p`. -/
  addS : ℚ → ℚ → ℚ

/-- Arithmetic without rounding, with the square root `sqrt`. -/
def Arith.exact (sqrt : ℚ → ℚ) : Arith :=
  { add := btVector3.add, sub := btVector3.sub, mul := btVector3.mul, div := btVector3.div,
    dot := btVector3.dot, norm := btVector3.norm sqrt, addS := fun a b => a + b }

namespace Arith

/-- The unnormalised direction `segments[(i + 1) % nsegs] - segments[i]`. -/
def dir (A : Arith) (t : Track) (i : Nat) : btVector3 :=
  A.sub (t.seg ((i + 1) % t.nsegs)) (t.seg i)

/-- The value `len = n.norm()` of iteration `i`. -/
def len (A : Arith) (t : Track) (i : Nat) : ℚ := A.norm (A.dir t i)

/-- The value of `n` after `n /= len`. -/
def unitDir (A : Arith) (t : Track) (i : Nat) : btVector3 := A.div (A.dir t i) (A.len t i)

/-- The value `p = (vpos - a).dot(n)` of iteration `i`. -/
def proj (A : Arith) (t : Track) (vpos : btVector3) (i : Nat) : ℚ :=
  A.dot (A.sub vpos (t.seg i)) (A.unitDir t i)

/-- The guard `0.0f <= p && p <= len` of iteration `i`; as in `Track.eligible`, a zero `len`
makes `p` non-finite and the guard false. -/
def eligible (A : Arith) (t : Track) (vpos : btVector3) (i : Nat) : Prop :=
  A.len t i ≠ 0 ∧ 0 ≤ A.proj t vpos i ∧ A.proj t vpos i ≤ A.len t i

instance (A : Arith) (t : Track) (vpos : btVector3) (i : Nat) :
    Decidable (A.eligible t vpos i) := by
  unfold Arith.eligible; infer_instance

/-- The value `segProj = a + n * p` of iteration `i`. -/
def segProj (A : Arith) (t : Track) (vpos : btVector3) (i : Nat) : btVector3 :=
  A.add (t.seg i) (A.mul (A.unitDir t i) (A.proj t vpos i))

/-- The value `segDist = (segProj - vpos).norm()` of iteration `i`. -/
def segDist (A : Arith) (t : Track) (vpos : btVector3) (i : Nat) : ℚ :=
  A.norm (A.sub (A.segProj t vpos i) vpos)

/-- One iteration of the loop body for index `i`. -/
def searchStep (A : Arith) (t : Track) (vpos : btVector3) (st : Nearest) (i : Nat) :
    Nearest :=
  if A.eligible t vpos i then
    if st.nearestSeg < 0 ∨ A.segDist t vpos i < st.nearestSegDist then
      { nearestSeg := (i : Int),
        nearestSegProj := A.segProj t vpos i,
        nearestSegDist := A.segDist t vpos i,
        trackDist := A.addS (t.dist i) (A.proj t vpos i) }
    else st
  else st

/-- The loop `for (int i = 0; i < k; ++i)` run from the initial locals. -/
def searchUpTo (A : Arith) (t : Track) (vpos : btVector3) (k : Nat) : Nearest :=
  (List.range k).foldl (A.searchStep t vpos) Nearest.init

/-- The whole search: the loop up to `nsegs`. -/
def nearestSegment (A : Arith) (t : Track) (vpos : btVector3) : Nearest :=
  A.searchUpTo t vpos t.nsegs

/-- The travel-direction update (lines 171-176). -/
def travelDirUpdate (A : Arith) (vel n : btVector3) (old : Int) : Int :=
  if A.dot vel vel < velEps then 0
  else if A.dot vel n > 0 then 1
  else if A.dot vel n < 0 then -1
  else old

/-- The method `Vehicle::updateTrackPerformance`. -/
def updateTrackPerformance (A : Arith) (t : Track) (v : Vehicle) : Vehicle :=
  let r := A.nearestSegment t v.origin
  if r.nearestSeg ≥ 0 then
    let n := A.sub (t.seg ((r.nearestSeg.toNat + 1) % t.nsegs)) (t.seg r.nearestSeg.toNat)
    { v with
      m_travelDir := A.travelDirUpdate v.linearVelocity n v.m_travelDir,
      m_bestSegment := max v.m_bestSegment r.nearestSeg,
      m_bestDistance := max v.m_bestDistance r.trackDist,
      m_curSegment := r.nearestSeg,
      m_curDistance := r.trackDist }
  else v

end Arith

/-! ## Binary32 arithmetic -/

/-- The loop of `log2`: halve until below 2, at most `fuel` times. -/
def log2Loop : Nat → Nat → Nat
  | 0, _ => 0
  | fuel + 1, n => if n < 2 then 0 else log2Loop fuel (n / 2) + 1

/-- The exponent `⌊log₂ n⌋` of a natural number (0 for 0). -/
def log2 (n : Nat) : Nat := log2Loop n n

/-- The power `2 ^ e` for an integer exponent. -/
def pow2 (e : Int) : ℚ :=
  if 0 ≤ e then ((2 ^ e.toNat : Nat) : ℚ) else 1 / ((2 ^ (-e).toNat : Nat) : ℚ)

/-- The exponent `⌊log₂ a⌋` of a positive rational. -/
def ilog2 (a : ℚ) : Int :=
  if pow2 ((log2 a.num.toNat : Int) - (log2 a.den : Int)) ≤ a then
    (log2 a.num.toNat : Int) - (log2 a.den : Int)
  else (log2 a.num.toNat : Int) - (log2 a.den : Int) - 1

/-- The integer nearest to a non-negative rational, ties to the even one. -/
def roundHalfEven (m : ℚ) : Int :=
  if m - ((m.num / (m.den : Int) : Int) : ℚ) < 1 / 2 then m.num / (m.den : Int)
  else if 1 / 2 < m - ((m.num / (m.den : Int) : Int) : ℚ) then m.num / (m.den : Int) + 1
  else if (m.num / (m.den : Int)) % 2 = 0 then m.num / (m.den : Int)
  else m.num / (m.den : Int) + 1

/-- Rounding to the nearest binary32 number, ties to even: 24 significant bits, the spacing
fixed at `2 ^ -149` below `2 ^ -126`.  Overflow to infinity is not modelled. -/
def round32 (q : ℚ) : ℚ :=
  if q = 0 then 0
  else if 0 < q then
    (roundHalfEven (q / pow2 (max (ilog2 q) (-126) - 23)) : ℚ) *
      pow2 (max (ilog2 q) (-126) - 23)
  else
    -((roundHalfEven (-q / pow2 (max (ilog2 (-q)) (-126) - 23)) : ℚ) *
      pow2 (max (ilog2 (-q)) (-126) - 23))

/-- The loop of the bitwise integer square root: bit `b - 1` downwards, each bit kept when the
square stays within `n`. -/
def isqrtLoop (n : Nat) : Nat → Nat → Nat
  | 0, r => r
  | b + 1, r => if (r + 2 ^ b) * (r + 2 ^ b) ≤ n then isqrtLoop n b (r + 2 ^ b) else isqrtLoop n b r

/-- The integer square root `⌊√n⌋`. -/
def isqrt (n : Nat) : Nat := isqrtLoop n (log2 n / 2 + 1) 0

/-- The correctly rounded binary32 square root (`sqrtf`): the integer square root of the
argument scaled by `4 ^ k` has at least 26 bits, a half is added to it when it is inexact,
and the result is rounded. -/
def sqrt32 (q : ℚ) : ℚ :=
  if q ≤ 0 then 0
  else
    round32
      (((2 * isqrt (q.num.toNat * 4 ^ (27 + log2 q.den) / q.den) +
          (if isqrt (q.num.toNat * 4 ^ (27 + log2 q.den) / q.den) *
                isqrt (q.num.toNat * 4 ^ (27 + log2 q.den) / q.den) * q.den =
              q.num.toNat * 4 ^ (27 + log2 q.den) then 0 else 1) : Nat) : ℚ) /
        ((2 * 2 ^ (27 + log2 q.den) : Nat) : ℚ))

/-- Binary32 arithmetic, reading the source text operator by operator: every scalar result
is rounded, the inner product is summed from left to right, and `v / s` divides
componentwise. -/
def Arith.binary32 : Arith :=
  { add := fun a b => ⟨round32 (a.x + b.x), round32 (a.y + b.y), round32 (a.z + b.z)⟩,
    sub := fun a b => ⟨round32 (a.x - b.x), round32 (a.y - b.y), round32 (a.z - b.z)⟩,
    mul := fun v s => ⟨round32 (v.x * s), round32 (v.y * s), round32 (v.z * s)⟩,
    div := fun v s => ⟨round32 (v.x / s), round32 (v.y / s), round32 (v.z / s)⟩,
    dot := fun a b =>
      round32 (round32 (round32 (a.x * b.x) + round32 (a.y * b.y)) + round32 (a.z * b.z)),
    norm := fun v =>
      sqrt32 (round32 (round32 (round32 (v.x * v.x) + round32 (v.y * v.y)) +
        round32 (v.z * v.z))),
    addS := fun a b => round32 (a + b) }

/-- Binary32 arithmetic in which `v / s` multiplies by the rounded reciprocal `1 / s`, the
other way a vector library may implement `operator/=`. -/
def Arith.binary32Recip : Arith :=
  { Arith.binary32 with
    div := fun v s =>
      ⟨round32 (v.x * round32 (1 / s)), round32 (v.y * round32 (1 / s)),
        round32 (v.z * round32 (1 / s))⟩ }

/-- A fresh vehicle high above the crossing track, at `(1.5, 2 ^ 25, 0)`. -/
def highVehicle : Vehicle := Vehicle.mk0 ⟨3 / 2, 33554432, 0⟩ ⟨0, 0, 0⟩ 0

/-- What the physics engine does to a vehicle between two tracker calls, as far as the
tracker can see: a new chassis origin and a new linear velocity. -/
def Vehicle.place (v : Vehicle) (m : btVector3 × btVector3) : Vehicle :=
  { v with origin := m.1, linearVelocity := m.2 }

/-- A sequence of `Vehicle::updateTrackPerformance` calls on one track, the physics engine
placing the vehicle before each call. -/
def Vehicle.trackRun (sqrt : ℚ → ℚ) (t : Track) (v : Vehicle)
    (moves : List (btVector3 × btVector3)) : Vehicle :=
  moves.foldl (fun u m => (u.place m).updateTrackPerformance sqrt t) v

/-- A network output beyond the range `[-1, 1]` in both components. -/
def overdrivenOutput : List ℚ := [2, -2]

/-- Three placements on the crossing track: the middle of segment 4, a point away from
every segment, the middle of segment 1. -/
def sampleMoves : List (btVector3 × btVector3) :=
  [(⟨1 / 2, -1, 0⟩, ⟨-1, 0, 0⟩), (⟨5, 5, 0⟩, ⟨1, 0, 0⟩), (⟨2, 1 / 2, 0⟩, ⟨0, -1, 0⟩)]

/-! # Theorems -/

/-! ## The search loop -/

theorem searchUpTo_zero (sqrt : ℚ → ℚ) (t : Track) (vpos : btVector3) :
    searchUpTo sqrt t vpos 0 = Nearest.init := by
  simp [searchUpTo]

theorem searchUpTo_succ (sqrt : ℚ → ℚ) (t : Track) (vpos : btVector3) (k : Nat) :
    searchUpTo sqrt t vpos (k + 1) = searchStep sqrt t vpos (searchUpTo sqrt t vpos k) k := by
  simp [searchUpTo, List.range_succ, List.foldl_append]

/-- The loop invariant after `k` iterations: either nothing was eligible and the locals are
untouched, or the locals describe the first eligible index of least `segDist`. -/
theorem searchUpTo_inv (sqrt : ℚ → ℚ) (t : Track) (vpos : btVector3) (k : Nat) :
    (searchUpTo sqrt t vpos k = Nearest.init ∧ ∀ j, j < k → ¬ t.eligible sqrt vpos j) ∨
    ∃ i, i < k ∧ t.eligible sqrt vpos i ∧
      searchUpTo sqrt t vpos k =
        { nearestSeg := (i : Int), nearestSegDist := t.segDist sqrt vpos i,
          nearestSegProj := t.segProj sqrt vpos i,
          trackDist := t.dist i + t.proj sqrt vpos i } ∧
      (∀ j, j < k → t.eligible sqrt vpos j → t.segDist sqrt vpos i ≤ t.segDist sqrt vpos j) ∧
      (∀ j, j < i → t.eligible sqrt vpos j → t.segDist sqrt vpos i < t.segDist sqrt vpos j) := by
  induction k with
  | zero => left; exact ⟨searchUpTo_zero sqrt t vpos, fun j hj => absurd hj (Nat.not_lt_zero j)⟩
  | succ k ih =>
    rw [searchUpTo_succ]
    rcases ih with ⟨hinit, hnone⟩ | ⟨i, hik, hel, hst, hmin, hfirst⟩
    · by_cases hk : t.eligible sqrt vpos k
      · right
        refine ⟨k, Nat.lt_succ_self k, hk, ?_, ?_, ?_⟩
        · simp [searchStep, hk, hinit, Nearest.init]
        · intro j hj hje
          rcases Nat.lt_succ_iff_lt_or_eq.mp hj with h | h
          · exact absurd hje (hnone j h)
          · subst h; exact le_refl _
        · intro j hj hje
          exact absurd hje (hnone j hj)
      · left
        refine ⟨by simp [searchStep, hk, hinit], ?_⟩
        intro j hj
        rcases Nat.lt_succ_iff_lt_or_eq.mp hj with h | h
        · exact hnone j h
        · subst h; exact hk
    · right
      by_cases hk : t.eligible sqrt vpos k
      · by_cases hlt : t.segDist sqrt vpos k < t.segDist sqrt vpos i
        · refine ⟨k, Nat.lt_succ_self k, hk, ?_, ?_, ?_⟩
          · simp [searchStep, hk, hst, hlt]
          · intro j hj hje
            rcases Nat.lt_succ_iff_lt_or_eq.mp hj with h | h
            · exact le_trans (le_of_lt hlt) (hmin j h hje)
            · subst h; exact le_refl _
          · intro j hj hje
            exact lt_of_lt_of_le hlt (hmin j hj hje)
        · refine ⟨i, Nat.lt_succ_of_lt hik, hel, ?_, ?_, hfirst⟩
          · have hneg : ¬ ((i : Int) < 0) := by omega
            simp [searchStep, hk, hst, hlt, hneg]
          · intro j hj hje
            rcases Nat.lt_succ_iff_lt_or_eq.mp hj with h | h
            · exact hmin j h hje
            · subst h; exact not_lt.mp hlt
      · refine ⟨i, Nat.lt_succ_of_lt hik, hel, ?_, ?_, hfirst⟩
        · simp [searchStep, hk, hst]
        · intro j hj hje
          rcases Nat.lt_succ_iff_lt_or_eq.mp hj with h | h
          · exact hmin j h hje
          · subst h; exact absurd hje hk

/-- When some index is eligible, the tracker writes the first eligible index of least
`segDist` and its track distance; every other written field is determined by that index. -/
theorem updateTrackPerformance_matched (sqrt : ℚ → ℚ) (t : Track) (v : Vehicle)
    (h : ∃ j, j < t.nsegs ∧ t.eligible sqrt v.origin j) :
    ∃ i, i < t.nsegs ∧ t.eligible sqrt v.origin i ∧
      (∀ j, j < t.nsegs → t.eligible sqrt v.origin j →
        t.segDist sqrt v.origin i ≤ t.segDist sqrt v.origin j) ∧
      (∀ j, j < i → t.eligible sqrt v.origin j →
        t.segDist sqrt v.origin i < t.segDist sqrt v.origin j) ∧
      v.updateTrackPerformance sqrt t =
        { v with
          m_travelDir := travelDirUpdate v.linearVelocity (t.dir i) v.m_travelDir,
          m_bestSegment := max v.m_bestSegment (i : Int),
          m_bestDistance := max v.m_bestDistance (t.dist i + t.proj sqrt v.origin i),
          m_curSegment := (i : Int),
          m_curDistance := t.dist i + t.proj sqrt v.origin i } := by
  rcases searchUpTo_inv sqrt t v.origin t.nsegs with ⟨_, hnone⟩ | ⟨i, hik, hel, hst, hmin, hfirst⟩
  · obtain ⟨j, hj, hje⟩ := h
    exact absurd hje (hnone j hj)
  · refine ⟨i, hik, hel, hmin, hfirst, ?_⟩
    have hnn : (0 : Int) ≤ (i : Int) := Int.natCast_nonneg i
    simp [Vehicle.updateTrackPerformance, nearestSegment, hst, hnn, Track.dir]

/-- When no index is eligible, the tracker returns the vehicle as it was. -/
theorem updateTrackPerformance_unmatched (sqrt : ℚ → ℚ) (t : Track) (v : Vehicle)
    (h : ∀ j, j < t.nsegs → ¬ t.eligible sqrt v.origin j) :
    v.updateTrackPerformance sqrt t = v := by
  rcases searchUpTo_inv sqrt t v.origin t.nsegs with ⟨hinit, _⟩ | ⟨i, hik, hel, _, _, _⟩
  · simp [Vehicle.updateTrackPerformance, nearestSegment, hinit, Nearest.init]
  · exact absurd hel (h i hik)

/-! ## Geometry of the midpoint -/

/-- With a square root exact on the squared length of segment `i`, the vector from the
position to `segProj` is perpendicular to the segment, so `segDist` is the perpendicular
distance to the segment's line. -/
theorem segProj_perpendicular (sqrt : ℚ → ℚ) (t : Track) (vpos : btVector3) (i : Nat)
    (hex : t.len sqrt i * t.len sqrt i = (t.dir i).dot (t.dir i)) (hlen : t.len sqrt i ≠ 0) :
    ((t.segProj sqrt vpos i).sub vpos).dot (t.dir i) = 0 := by
  have hL : (t.dir i).dot (t.dir i) = t.len sqrt i * t.len sqrt i := hex.symm
  simp only [Track.segProj, Track.proj, Track.unitDir, btVector3.dot, btVector3.sub,
    btVector3.add, btVector3.mul, btVector3.div] at hL ⊢
  field_simp
  linear_combination
    ((vpos.x - (t.seg i).x) * (t.dir i).x + (vpos.y - (t.seg i).y) * (t.dir i).y +
      (vpos.z - (t.seg i).z) * (t.dir i).z) * hL

/-! ## Binary32 rounding at known values -/

/-- The rounding and the square root reproduce the binary32 numbers `0.1f`, `1.0f/3.0f`,
`sqrtf(2.0f)` and `sqrtf(18.0f)`, round the odd integer `2^25 - 1` to `2^25`, and leave `1.5`
as it is. -/
theorem round32_samples :
    round32 (1 / 10) = 13421773 / 134217728 ∧
    round32 (1 / 3) = 11184811 / 33554432 ∧
    sqrt32 2 = 11863283 / 8388608 ∧
    sqrt32 18 = 4448731 / 1048576 ∧
    round32 33554431 = 33554432 ∧
    round32 (3 / 2) = 3 / 2 := by
  decide!

/-! ## The search loop in the arithmetic of the build -/

/-- With exact arithmetic the parametrised tracker is the tracker defined first. -/
theorem arith_exact_updateTrackPerformance (sqrt : ℚ → ℚ) (t : Track) (v : Vehicle) :
    (Arith.exact sqrt).updateTrackPerformance t v = v.updateTrackPerformance sqrt t := rfl

theorem arith_searchUpTo_zero (A : Arith) (t : Track) (vpos : btVector3) :
    A.searchUpTo t vpos 0 = Nearest.init := by
  simp [Arith.searchUpTo]

theorem arith_searchUpTo_succ (A : Arith) (t : Track) (vpos : btVector3) (k : Nat) :
    A.searchUpTo t vpos (k + 1) = A.searchStep t vpos (A.searchUpTo t vpos k) k := by
  simp [Arith.searchUpTo, List.range_succ, List.foldl_append]

/-- The loop invariant in any arithmetic: after `k` iterations either no index passed the
guard and the locals are untouched, or the locals describe the first index of least computed
`segDist` among those that passed. -/
theorem arith_searchUpTo_inv (A : Arith) (t : Track) (vpos : btVector3) (k : Nat) :
    (A.searchUpTo t vpos k = Nearest.init ∧ ∀ j, j < k → ¬ A.eligible t vpos j) ∨
    ∃ i, i < k ∧ A.eligible t vpos i ∧
      A.searchUpTo t vpos k =
        { nearestSeg := (i : Int), nearestSegDist := A.segDist t vpos i,
          nearestSegProj := A.segProj t vpos i,
          trackDist := A.addS (t.dist i) (A.proj t vpos i) } ∧
      (∀ j, j < k → A.eligible t vpos j → A.segDist t vpos i ≤ A.segDist t vpos j) ∧
      (∀ j, j < i → A.eligible t vpos j → A.segDist t vpos i < A.segDist t vpos j) := by
  induction k with
  | zero => left; exact ⟨arith_searchUpTo_zero A t vpos, fun j hj => absurd hj (Nat.not_lt_zero j)⟩
  | succ k ih =>
    rw [arith_searchUpTo_succ]
    rcases ih with ⟨hinit, hnone⟩ | ⟨i, hik, hel, hst, hmin, hfirst⟩
    · by_cases hk : A.eligible t vpos k
      · right
        refine ⟨k, Nat.lt_succ_self k, hk, ?_, ?_, ?_⟩
        · simp [Arith.searchStep, hk, hinit, Nearest.init]
        · intro j hj hje
          rcases Nat.lt_succ_iff_lt_or_eq.mp hj with h | h
          · exact absurd hje (hnone j h)
          · subst h; exact le_refl _
        · intro j hj hje
          exact absurd hje (hnone j hj)
      · left
        refine ⟨by simp [Arith.searchStep, hk, hinit], ?_⟩
        intro j hj
        rcases Nat.lt_succ_iff_lt_or_eq.mp hj with h | h
        · exact hnone j h
        · subst h; exact hk
    · right
      by_cases hk : A.eligible t vpos k
      · by_cases hlt : A.segDist t vpos k < A.segDist t vpos i
        · refine ⟨k, Nat.lt_succ_self k, hk, ?_, ?_, ?_⟩
          · simp [Arith.searchStep, hk, hst, hlt]
          · intro j hj hje
            rcases Nat.lt_succ_iff_lt_or_eq.mp hj with h | h
            · exact le_trans (le_of_lt hlt) (hmin j h hje)
            · subst h; exact le_refl _
          · intro j hj hje
            exact lt_of_lt_of_le hlt (hmin j hj hje)
        · refine ⟨i, Nat.lt_succ_of_lt hik, hel, ?_, ?_, hfirst⟩
          · have hneg : ¬ ((i : Int) < 0) := by omega
            simp [Arith.searchStep, hk, hst, hlt, hneg]
          · intro j hj hje
            rcases Nat.lt_succ_iff_lt_or_eq.mp hj with h | h
            · exact hmin j h hje
            · subst h; exact not_lt.mp hlt
      · refine ⟨i, Nat.lt_succ_of_lt hik, hel, ?_, ?_, hfirst⟩
        · simp [Arith.searchStep, hk, hst]
        · intro j hj hje
          rcases Nat.lt_succ_iff_lt_or_eq.mp hj with h | h
          · exact hmin j h hje
          · subst h; exact absurd hje hk

/-- In any arithmetic, when some index passes the guard the tracker writes the first such
index of least computed `segDist` and its computed track distance. -/
theorem arith_updateTrackPerformance_matched (A : Arith) (t : Track) (v : Vehicle)
    (h : ∃ j, j < t.nsegs ∧ A.eligible t v.origin j) :
    ∃ i, i < t.nsegs ∧ A.eligible t v.origin i ∧
      (∀ j, j < t.nsegs → A.eligible t v.origin j →
        A.segDist t v.origin i ≤ A.segDist t v.origin j) ∧
      (∀ j, j < i → A.eligible t v.origin j →
        A.segDist t v.origin i < A.segDist t v.origin j) ∧
      A.updateTrackPerformance t v =
        { v with
          m_travelDir := A.travelDirUpdate v.linearVelocity (A.dir t i) v.m_travelDir,
          m_bestSegment := max v.m_bestSegment (i : Int),
          m_bestDistance := max v.m_bestDistance (A.addS (t.dist i) (A.proj t v.origin i)),
          m_curSegment := (i : Int),
          m_curDistance := A.addS (t.dist i) (A.proj t v.origin i) } := by
  rcases arith_searchUpTo_inv A t v.origin t.nsegs with
    ⟨_, hnone⟩ | ⟨i, hik, hel, hst, hmin, hfirst⟩
  · obtain ⟨j, hj, hje⟩ := h
    exact absurd hje (hnone j hj)
  · refine ⟨i, hik, hel, hmin, hfirst, ?_⟩
    have hnn : (0 : Int) ≤ (i : Int) := Int.natCast_nonneg i
    simp [Arith.updateTrackPerformance, Arith.nearestSegment, hst, hnn, Arith.dir]

/-! ## Claims about `Vehicle::updateTrackPerformance` -/

/-- C2 (as stated) fails: for the vehicle at `(1.5, 2^25, 0)` over the crossing track,
segments 0 and 2 both pass the guard (in binary32 and exactly) and segment 2 is the nearer
one: the exact squared perpendicular distances are `(2^25)^2` for segment 0 and
`(2^25 - 1)^2` for segment 2.  In binary32 the offset `1 - 2^25` rounds to `-2^25`, the two
computed distances tie at `2^25`, and the tracker keeps segment 0. -/
theorem C2_nearest_counterexample :
    Arith.binary32.eligible crossingTrack highVehicle.origin 0 ∧
    Arith.binary32.eligible crossingTrack highVehicle.origin 2 ∧
    crossingTrack.eligible sqrtQ highVehicle.origin 0 ∧
    crossingTrack.eligible sqrtQ highVehicle.origin 2 ∧
    ((crossingTrack.segProj sqrtQ highVehicle.origin 0).sub highVehicle.origin).dot
      ((crossingTrack.segProj sqrtQ highVehicle.origin 0).sub highVehicle.origin) =
        33554432 ^ 2 ∧
    ((crossingTrack.segProj sqrtQ highVehicle.origin 2).sub highVehicle.origin).dot
      ((crossingTrack.segProj sqrtQ highVehicle.origin 2).sub highVehicle.origin) =
        33554431 ^ 2 ∧
    Arith.binary32.segDist crossingTrack highVehicle.origin 0 = 33554432 ∧
    Arith.binary32.segDist crossingTrack highVehicle.origin 2 = 33554432 ∧
    (Arith.binary32.updateTrackPerformance crossingTrack highVehicle).m_curSegment = 0 ∧
    (Arith.binary32Recip.updateTrackPerformance crossingTrack highVehicle).m_curSegment =
      0 := by
  decide!

/-- C2 (amended): in whatever arithmetic the build provides, when some segment passes the
guard (computed length non-zero, computed projection parameter `p` within `[0, len]`), the
tracker sets the current segment to an index `i` that passes the guard and whose computed
distance `segDist` is least among the segments that pass it, the lowest such index on ties,
and sets the current track distance to the computed sum `dist[i] + p` for that segment. -/
theorem C2_nearest_computed_segment (A : Arith) (t : Track) (v : Vehicle)
    (h : ∃ j, j < t.nsegs ∧ A.eligible t v.origin j) :
    ∃ i, i < t.nsegs ∧ A.eligible t v.origin i ∧
      (A.updateTrackPerformance t v).m_curSegment = (i : Int) ∧
      (∀ j, j < t.nsegs → A.eligible t v.origin j →
        A.segDist t v.origin i ≤ A.segDist t v.origin j) ∧
      (∀ j, j < i → A.eligible t v.origin j →
        A.segDist t v.origin i < A.segDist t v.origin j) ∧
      (A.updateTrackPerformance t v).m_curDistance =
        A.addS (t.dist i) (A.proj t v.origin i) := by
  obtain ⟨i, hi, hel, hmin, hlow, hres⟩ := arith_updateTrackPerformance_matched A t v h
  exact ⟨i, hi, hel, by rw [hres], hmin, hlow, by rw [hres]⟩

/-- Witness for C2 (amended): binary32 arithmetic, the vehicle high above the crossing
track. -/
theorem C2_nearest_computed_segment_witness :
    ∃ i, i < crossingTrack.nsegs ∧ Arith.binary32.eligible crossingTrack highVehicle.origin i ∧
      (Arith.binary32.updateTrackPerformance crossingTrack highVehicle).m_curSegment =
        (i : Int) ∧
      (∀ j, j < crossingTrack.nsegs → Arith.binary32.eligible crossingTrack highVehicle.origin j →
        Arith.binary32.segDist crossingTrack highVehicle.origin i ≤
          Arith.binary32.segDist crossingTrack highVehicle.origin j) ∧
      (∀ j, j < i → Arith.binary32.eligible crossingTrack highVehicle.origin j →
        Arith.binary32.segDist crossingTrack highVehicle.origin i <
          Arith.binary32.segDist crossingTrack highVehicle.origin j) ∧
      (Arith.binary32.updateTrackPerformance crossingTrack highVehicle).m_curDistance =
        Arith.binary32.addS (crossingTrack.dist i)
          (Arith.binary32.proj crossingTrack highVehicle.origin i) :=
  C2_nearest_computed_segment Arith.binary32 crossingTrack highVehicle
    ⟨0, by decide!, by decide!⟩

/-- C3: when no segment has the position's projection parameter within `[0, len]` (in
particular on an empty track) the tracker returns the vehicle unchanged, so current segment,
best segment, current distance, best distance and travel direction keep their values. -/
theorem C3_no_match_no_change (sqrt : ℚ → ℚ) (t : Track) (v : Vehicle)
    (h : ∀ j, j < t.nsegs → ¬ t.eligible sqrt v.origin j) :
    v.updateTrackPerformance sqrt t = v ∧
    (v.updateTrackPerformance sqrt t).m_curSegment = v.m_curSegment ∧
    (v.updateTrackPerformance sqrt t).m_bestSegment = v.m_bestSegment ∧
    (v.updateTrackPerformance sqrt t).m_curDistance = v.m_curDistance ∧
    (v.updateTrackPerformance sqrt t).m_bestDistance = v.m_bestDistance ∧
    (v.updateTrackPerformance sqrt t).m_travelDir = v.m_travelDir := by
  rw [updateTrackPerformance_unmatched sqrt t v h]
  exact ⟨rfl, rfl, rfl, rfl, rfl, rfl⟩

/-- Witness for C3: a vehicle away from every segment of the crossing track. -/
theorem C3_no_match_no_change_witness :
    (∀ j, j < crossingTrack.nsegs → ¬ crossingTrack.eligible sqrtQ farVehicle.origin j) ∧
    farVehicle.updateTrackPerformance sqrtQ crossingTrack = farVehicle :=
  ⟨by decide!, (C3_no_match_no_change sqrtQ crossingTrack farVehicle (by decide!)).1⟩

/-- C4: the best segment and the best distance never decrease across a call of the tracker,
and when a segment is matched they are the maxima of their old values and the newly written
current values. -/
theorem C4_best_running_max (sqrt : ℚ → ℚ) (t : Track) (v : Vehicle) :
    v.m_bestSegment ≤ (v.updateTrackPerformance sqrt t).m_bestSegment ∧
    v.m_bestDistance ≤ (v.updateTrackPerformance sqrt t).m_bestDistance ∧
    ((∃ j, j < t.nsegs ∧ t.eligible sqrt v.origin j) →
      (v.updateTrackPerformance sqrt t).m_bestSegment =
        max v.m_bestSegment (v.updateTrackPerformance sqrt t).m_curSegment ∧
      (v.updateTrackPerformance sqrt t).m_bestDistance =
        max v.m_bestDistance (v.updateTrackPerformance sqrt t).m_curDistance) := by
  by_cases h : ∃ j, j < t.nsegs ∧ t.eligible sqrt v.origin j
  · obtain ⟨i, _, _, _, _, hres⟩ := updateTrackPerformance_matched sqrt t v h
    rw [hres]
    exact ⟨le_max_left _ _, le_max_left _ _, fun _ => ⟨rfl, rfl⟩⟩
  · have h1 : ∀ j, j < t.nsegs → ¬ t.eligible sqrt v.origin j :=
      fun j hj hje => h ⟨j, hj, hje⟩
    rw [updateTrackPerformance_unmatched sqrt t v h1]
    exact ⟨le_refl _, le_refl _, fun h2 => absurd h2 h⟩

/-- Witness for C4: the matched case on the crossing track. -/
theorem C4_best_running_max_witness :
    (sideVehicle.updateTrackPerformance sqrtQ crossingTrack).m_bestSegment =
      max sideVehicle.m_bestSegment
        (sideVehicle.updateTrackPerformance sqrtQ crossingTrack).m_curSegment ∧
    (sideVehicle.updateTrackPerformance sqrtQ crossingTrack).m_bestDistance =
      max sideVehicle.m_bestDistance
        (sideVehicle.updateTrackPerformance sqrtQ crossingTrack).m_curDistance :=
  (C4_best_running_max sqrtQ crossingTrack sideVehicle).2.2 ⟨1, by decide!, by decide!⟩

/-- C5 (as stated) fails: a fresh vehicle on segment 1 of the crossing track moving at unit
speed across the segment is matched, its speed is above the threshold, and its travel
direction after the call is the old value 0, neither +1 nor -1. -/
theorem C5_travel_dir_counterexample :
    (∃ j, j < crossingTrack.nsegs ∧ crossingTrack.eligible sqrtQ acrossVehicle.origin j) ∧
    ¬ (acrossVehicle.linearVelocity.dot acrossVehicle.linearVelocity < velEps) ∧
    (acrossVehicle.updateTrackPerformance sqrtQ crossingTrack).m_travelDir = 0 ∧
    (acrossVehicle.updateTrackPerformance sqrtQ crossingTrack).m_travelDir ≠ 1 ∧
    (acrossVehicle.updateTrackPerformance sqrtQ crossingTrack).m_travelDir ≠ -1 := by
  refine ⟨⟨1, by decide!, by decide!⟩, by decide!, by decide!, by decide!, by decide!⟩

/-- C5 (amended): after a call that matches a segment, with `n` the direction of the matched
segment, the travel direction is 0 if `vel·vel < 1e-6`; otherwise it is +1 if `vel·n > 0`,
-1 if `vel·n < 0`, and the value it had before the call if `vel·n = 0`. -/
theorem C5_travel_dir (sqrt : ℚ → ℚ) (t : Track) (v : Vehicle)
    (h : ∃ j, j < t.nsegs ∧ t.eligible sqrt v.origin j) :
    (v.linearVelocity.dot v.linearVelocity < velEps →
      (v.updateTrackPerformance sqrt t).m_travelDir = 0) ∧
    (¬ v.linearVelocity.dot v.linearVelocity < velEps →
      (0 < v.linearVelocity.dot
          (t.dir (v.updateTrackPerformance sqrt t).m_curSegment.toNat) →
        (v.updateTrackPerformance sqrt t).m_travelDir = 1) ∧
      (v.linearVelocity.dot
          (t.dir (v.updateTrackPerformance sqrt t).m_curSegment.toNat) < 0 →
        (v.updateTrackPerformance sqrt t).m_travelDir = -1) ∧
      (v.linearVelocity.dot
          (t.dir (v.updateTrackPerformance sqrt t).m_curSegment.toNat) = 0 →
        (v.updateTrackPerformance sqrt t).m_travelDir = v.m_travelDir)) := by
  obtain ⟨i, _, _, _, _, hres⟩ := updateTrackPerformance_matched sqrt t v h
  rw [hres]
  simp only [Int.toNat_ofNat, travelDirUpdate]
  refine ⟨fun h1 => by simp [h1], fun h1 => ⟨fun h2 => by simp [h1, h2], fun h2 => ?_,
    fun h2 => by simp [h1, h2]⟩⟩
  have h3 : ¬ (0 < v.linearVelocity.dot (t.dir i)) := not_lt.mpr (le_of_lt h2)
  simp [h1, h2, h3]

/-- Witness for C5 (amended): a vehicle moving along segment 1 of the crossing track gets
travel direction +1. -/
theorem C5_travel_dir_witness :
    (sideVehicle.updateTrackPerformance sqrtQ crossingTrack).m_travelDir = 1 :=
  ((C5_travel_dir sqrtQ crossingTrack sideVehicle ⟨1, by decide!, by decide!⟩).2
    (by decide!)).1 (by decide!)

/-! ## The tick loop -/

theorem updateTrackPerformance_alive (sqrt : ℚ → ℚ) (t : Track) (v : Vehicle) :
    (v.updateTrackPerformance sqrt t).m_alive = v.m_alive ∧
    (v.updateTrackPerformance sqrt t).m_birthTime = v.m_birthTime := by
  by_cases h : (nearestSegment sqrt t v.origin).nearestSeg ≥ 0 <;>
    simp [Vehicle.updateTrackPerformance, h]

theorem take_set_self {α : Type} (l : List α) (k : Nat) (a : α) :
    (l.set k a).take k = l.take k := by
  apply List.ext_getElem?
  intro i
  rw [List.getElem?_take, List.getElem?_take]
  split
  · rw [List.getElem?_set_ne (by omega)]
  · rfl

/-- After `k` iterations the first `k` vehicles are the processed ones, the others are
untouched, and `numAlive` counts the living among the processed. -/
theorem tickLoop_inv (ext : Collaborators) (t : Track) (vs : List Vehicle) (k : Nat)
    (hk : k ≤ vs.length) :
    ((List.range k).foldl (tickStep ext t) (0, vs)).2.length = vs.length ∧
    (∀ j, ((List.range k).foldl (tickStep ext t) (0, vs)).2[j]? =
      if j < k then (vs[j]?).map (updateVehicle ext.btSqrt t (ext.glfwGetTime j))
      else vs[j]?) ∧
    ((List.range k).foldl (tickStep ext t) (0, vs)).1 =
      ((((List.range k).foldl (tickStep ext t) (0, vs)).2.take k).countP
        (fun v => v.m_alive) : Nat) := by
  induction k with
  | zero => simp
  | succ k ih =>
    obtain ⟨hlen, hget, hcnt⟩ := ih (Nat.le_of_succ_le hk)
    have hkl : k < vs.length := hk
    rw [List.range_succ, List.foldl_append]
    simp only [List.foldl_cons, List.foldl_nil]
    generalize (List.range k).foldl (tickStep ext t) (0, vs) = st at hlen hget hcnt
    have hk1 : st.2[k]? = some vs[k] := by
      rw [hget k]; simp [hkl]
    have hk2 : st.2.get? k = some vs[k] := by
      rw [List.get?_eq_getElem?]; exact hk1
    simp only [tickStep, hk2]
    refine ⟨by simp [hlen], ?_, ?_⟩
    · intro j
      rw [List.getElem?_set]
      by_cases hjk : k = j
      · subst hjk
        simp [hlen, hkl]
      · have := hget j
        by_cases hj : j < k
        · have hj1 : j < k + 1 := Nat.lt_succ_of_lt hj
          simp [hjk, hj, hj1, this]
        · have hj1 : ¬ j < k + 1 := by omega
          simp [hjk, hj, hj1, this]
    · have hkl2 : k < st.2.length := by omega
      have htk : (st.2.set k (updateVehicle ext.btSqrt t (ext.glfwGetTime k) vs[k])).take (k + 1)
          = st.2.take k ++ [updateVehicle ext.btSqrt t (ext.glfwGetTime k) vs[k]] := by
        rw [List.take_succ]
        simp [take_set_self, hkl2]
      rw [htk, List.countP_append, hcnt]
      by_cases ha : (updateVehicle ext.btSqrt t (ext.glfwGetTime k) vs[k]).m_alive = true
      · simp [ha]
      · simp [ha]

/-- The tick loop leaves each vehicle processed by `updateVehicle` at its own index, and
`numAlive` is the number of living vehicles in the resulting list. -/
theorem tickLoop_result (ext : Collaborators) (t : Track) (vs : List Vehicle) :
    (tickLoop ext t vs).2.length = vs.length ∧
    (∀ j, (tickLoop ext t vs).2[j]? =
      (vs[j]?).map (updateVehicle ext.btSqrt t (ext.glfwGetTime j))) ∧
    (tickLoop ext t vs).1 = (((tickLoop ext t vs).2.countP (fun v => v.m_alive) : Nat) : Int) := by
  obtain ⟨hlen, hget, hcnt⟩ := tickLoop_inv ext t vs vs.length (le_refl _)
  refine ⟨hlen, ?_, ?_⟩
  · intro j
    unfold tickLoop
    rw [hget j]
    by_cases hj : j < vs.length
    · simp [hj]
    · have : vs[j]? = none := by simp; omega
      simp [hj, this]
  · unfold tickLoop
    rw [hcnt, List.take_of_length_le (le_of_eq hlen)]

theorem updateVehicle_alive_iff (sqrt : ℚ → ℚ) (t : Track) (now : ℚ) (v : Vehicle)
    (ha : v.m_alive = true) :
    (updateVehicle sqrt t now v).m_curSegment = (v.update sqrt t).m_curSegment ∧
    ((updateVehicle sqrt t now v).m_alive = false ↔
      (v.update sqrt t).m_curSegment < 0 ∨
        (now - v.m_birthTime > 20 ∧ (v.update sqrt t).m_curSegment < 2)) := by
  obtain ⟨h1, h2⟩ := updateTrackPerformance_alive sqrt t v
  rw [ha] at h1
  simp only [updateVehicle, ha, Vehicle.update, Vehicle.curTrackSegment, Vehicle.kill,
    if_true]
  by_cases hneg : (v.updateTrackPerformance sqrt t).m_curSegment < 0
  · by_cases hto : now - v.m_birthTime > 20 ∧ (v.updateTrackPerformance sqrt t).m_curSegment < 2
    · simp [hneg, hto, h2]
    · simp [hneg, hto, h2]
  · by_cases hto : now - v.m_birthTime > 20 ∧ (v.updateTrackPerformance sqrt t).m_curSegment < 2
    · simp [hneg, hto, h2]
    · simp [hneg, hto, h2, h1]

/-! ## Claims about `Simulation::update` -/

/-- When `Simulation::update` makes no call after its loop, the state it returns holds the
vehicle list the loop left. -/
theorem update_no_transition (ext : Collaborators) (dt : ℚ) (s : Simulation)
    (h : (s.update ext dt).2 = []) :
    (s.update ext dt).1 =
      { s with m_vehicles := (tickLoop ext s.track (ext.stepSimulation dt s.m_vehicles)).2 } := by
  by_cases h0 : (tickLoop ext s.track (ext.stepSimulation dt s.m_vehicles)).1 = 0
  · have hu : (s.update ext dt).2 = [Call.applyEvolution, Call.resetVehicles] := by
      simp [Simulation.update, h0]
    rw [hu] at h
    exact List.noConfusion h
  · simp [Simulation.update, h0]

/-- C6: in `Simulation::update`, a vehicle that is alive when its turn comes is left by the
loop, processed, at its index (and is found there in the returned state when the call makes
no generation transition); it is dead there if and only if the current segment held after
this tick's tracker update is negative, or more than 20 s have elapsed since birth and that
segment is below 2.  With 20.0001 s elapsed a segment below 2 gives a dead vehicle and
segment 2 a living one; with exactly 20 s elapsed the vehicle dies only on a negative
segment. -/
theorem C6_kill_predicate (ext : Collaborators) (dt : ℚ) (s : Simulation) (i : Nat)
    (v : Vehicle) (hv : (ext.stepSimulation dt s.m_vehicles)[i]? = some v)
    (ha : v.m_alive = true) :
    (tickLoop ext s.track (ext.stepSimulation dt s.m_vehicles)).2[i]? =
      some (updateVehicle ext.btSqrt s.track (ext.glfwGetTime i) v) ∧
    ((s.update ext dt).2 = [] →
      (s.update ext dt).1.m_vehicles[i]? =
        some (updateVehicle ext.btSqrt s.track (ext.glfwGetTime i) v)) ∧
    (updateVehicle ext.btSqrt s.track (ext.glfwGetTime i) v).m_curSegment =
      (v.update ext.btSqrt s.track).m_curSegment ∧
    ((updateVehicle ext.btSqrt s.track (ext.glfwGetTime i) v).m_alive = false ↔
      (v.update ext.btSqrt s.track).m_curSegment < 0 ∨
        (ext.glfwGetTime i - v.m_birthTime > 20 ∧
          (v.update ext.btSqrt s.track).m_curSegment < 2)) ∧
    (ext.glfwGetTime i - v.m_birthTime = 20 + 1 / 10000 →
      ((v.update ext.btSqrt s.track).m_curSegment < 2 →
        (updateVehicle ext.btSqrt s.track (ext.glfwGetTime i) v).m_alive = false) ∧
      ((v.update ext.btSqrt s.track).m_curSegment = 2 →
        (updateVehicle ext.btSqrt s.track (ext.glfwGetTime i) v).m_alive = true)) ∧
    (ext.glfwGetTime i - v.m_birthTime = 20 →
      ((updateVehicle ext.btSqrt s.track (ext.glfwGetTime i) v).m_alive = false ↔
        (v.update ext.btSqrt s.track).m_curSegment < 0)) := by
  obtain ⟨hseg, hiff⟩ := updateVehicle_alive_iff ext.btSqrt s.track (ext.glfwGetTime i) v ha
  have hloop : (tickLoop ext s.track (ext.stepSimulation dt s.m_vehicles)).2[i]? =
      some (updateVehicle ext.btSqrt s.track (ext.glfwGetTime i) v) := by
    rw [(tickLoop_result ext s.track (ext.stepSimulation dt s.m_vehicles)).2.1 i, hv]; rfl
  refine ⟨hloop, ?_, hseg, hiff, ?_, ?_⟩
  · intro hnone
    rw [update_no_transition ext dt s hnone]
    exact hloop
  · intro he
    have h20 : ext.glfwGetTime i - v.m_birthTime > 20 := by rw [he]; norm_num
    constructor
    · intro hlt
      exact hiff.mpr (Or.inr ⟨h20, hlt⟩)
    · intro heq
      have hn : ¬ ((updateVehicle ext.btSqrt s.track (ext.glfwGetTime i) v).m_alive = false) := by
        rw [hiff, heq]; simp
      simpa using hn
  · intro he
    rw [hiff, he]
    simp

/-- Witness for C6: of two vehicles born at time 0 and processed when the clock reads
20.0001, the one on segment 1 of the crossing track is dead after its turn and the one on
segment 2 is alive. -/
theorem C6_kill_predicate_witness :
    (tickLoop stillWorld timedSim.track timedSim.m_vehicles).2[0]? =
      some (updateVehicle sqrtQ timedSim.track (20 + 1 / 10000) sideVehicle) ∧
    (updateVehicle sqrtQ timedSim.track (20 + 1 / 10000) sideVehicle).m_alive = false ∧
    (updateVehicle sqrtQ timedSim.track (20 + 1 / 10000) thirdVehicle).m_alive = true :=
  ⟨(C6_kill_predicate stillWorld 0 timedSim 0 sideVehicle rfl rfl).1,
   ((C6_kill_predicate stillWorld 0 timedSim 0 sideVehicle rfl rfl).2.2.2.2.1
      (by decide!)).1 (by decide!),
   ((C6_kill_predicate stillWorld 0 timedSim 1 thirdVehicle rfl rfl).2.2.2.2.1
      (by decide!)).2 (by decide!)⟩

/-- C9: in every call of `Simulation::update` the calls made after the loop are either
`applyEvolution` followed by `resetVehicles`, once each, or none at all; they are made exactly
when no vehicle in the list left by the loop is alive, and the returned state is the
transition applied to that list, or that list as it is. -/
theorem C9_transition_iff_none_alive (ext : Collaborators) (dt : ℚ) (s : Simulation) :
    ((s.update ext dt).2 = [Call.applyEvolution, Call.resetVehicles] ∨ (s.update ext dt).2 = []) ∧
    ((s.update ext dt).2 = [Call.applyEvolution, Call.resetVehicles] ↔
      ∀ v, v ∈ (tickLoop ext s.track (ext.stepSimulation dt s.m_vehicles)).2 →
        v.m_alive = false) ∧
    ((s.update ext dt).2 = [] ↔
      ∃ v, v ∈ (tickLoop ext s.track (ext.stepSimulation dt s.m_vehicles)).2 ∧
        v.m_alive = true) ∧
    ((s.update ext dt).2 = [Call.applyEvolution, Call.resetVehicles] →
      (s.update ext dt).1 =
        (({ s with m_vehicles :=
              (tickLoop ext s.track (ext.stepSimulation dt s.m_vehicles)).2 }
            : Simulation).applyEvolution ext).resetVehicles ext) ∧
    ((s.update ext dt).2 = [] →
      (s.update ext dt).1 =
        { s with m_vehicles :=
            (tickLoop ext s.track (ext.stepSimulation dt s.m_vehicles)).2 }) := by
  have hcnt := (tickLoop_result ext s.track (ext.stepSimulation dt s.m_vehicles)).2.2
  have hzero : (tickLoop ext s.track (ext.stepSimulation dt s.m_vehicles)).1 = 0 ↔
      ∀ v, v ∈ (tickLoop ext s.track (ext.stepSimulation dt s.m_vehicles)).2 →
        v.m_alive = false := by
    rw [hcnt]
    simp [List.countP_eq_zero]
  by_cases h0 : (tickLoop ext s.track (ext.stepSimulation dt s.m_vehicles)).1 = 0
  · have hall := hzero.mp h0
    have hex : ¬ ∃ v, v ∈ (tickLoop ext s.track (ext.stepSimulation dt s.m_vehicles)).2 ∧
        v.m_alive = true := by
      rintro ⟨v, hv, hva⟩
      rw [hall v hv] at hva
      exact Bool.noConfusion hva
    have hu : s.update ext dt =
        ((({ s with m_vehicles :=
              (tickLoop ext s.track (ext.stepSimulation dt s.m_vehicles)).2 }
            : Simulation).applyEvolution ext).resetVehicles ext,
          [Call.applyEvolution, Call.resetVehicles]) := by
      simp [Simulation.update, h0]
    rw [hu]
    exact ⟨Or.inl rfl, ⟨fun _ => hall, fun _ => rfl⟩,
      ⟨fun h => List.noConfusion h, fun h => absurd h hex⟩, fun _ => rfl,
      fun h => List.noConfusion h⟩
  · have hall : ¬ ∀ v, v ∈ (tickLoop ext s.track (ext.stepSimulation dt s.m_vehicles)).2 →
        v.m_alive = false := fun h => h0 (hzero.mpr h)
    have hex : ∃ v, v ∈ (tickLoop ext s.track (ext.stepSimulation dt s.m_vehicles)).2 ∧
        v.m_alive = true := by
      by_contra hne
      apply hall
      intro v hv
      by_contra hva
      exact hne ⟨v, hv, by simpa using hva⟩
    have hu : s.update ext dt =
        ({ s with m_vehicles :=
            (tickLoop ext s.track (ext.stepSimulation dt s.m_vehicles)).2 }, []) := by
      simp [Simulation.update, h0]
    rw [hu]
    exact ⟨Or.inr rfl, ⟨fun h => List.noConfusion h, fun h => absurd h hall⟩,
      ⟨fun _ => hex, fun _ => rfl⟩, fun h => List.noConfusion h, fun _ => rfl⟩

/-! ## Claims about the controller -/

/-- C8: when the network evaluation succeeds the controller applies
`steer = output[0] * steerMax` and `force = revMax + (fwdMax - revMax) * (output[1]*0.5 + 0.5)`;
with the constructor's limits the force is -3000 at `output[1] = -1`, 5000 at `output[1] = 1`,
increasing in `output[1]`, within `[-3000, 5000]` for `output[1]` in `[-1, 1]`, and the
steering is within `[-0.6, 0.6]` for `output[0]` in `[-1, 1]`. -/
theorem C8_actuation_mapping (c : VehicleController) (compute : List ℚ → Option (List ℚ))
    (input output : List ℚ) (h : compute input = some output) :
    VehicleControllerNeuralNet.update c compute input =
      some { steer := output.getD 0 0 * c.m_steerMax,
             force := c.m_engineForceRevMax +
               (c.m_engineForceFwdMax - c.m_engineForceRevMax) *
                 (output.getD 1 0 * (1 / 2) + 1 / 2) } ∧
    VehicleController.mk0.forceOf (-1) = VehicleController.mk0.m_engineForceRevMax ∧
    VehicleController.mk0.m_engineForceRevMax = -3000 ∧
    VehicleController.mk0.forceOf 1 = VehicleController.mk0.m_engineForceFwdMax ∧
    VehicleController.mk0.m_engineForceFwdMax = 5000 ∧
    (∀ a b : ℚ, a < b → VehicleController.mk0.forceOf a < VehicleController.mk0.forceOf b) ∧
    (∀ o : ℚ, -1 ≤ o → o ≤ 1 →
      -3000 ≤ VehicleController.mk0.forceOf o ∧ VehicleController.mk0.forceOf o ≤ 5000) ∧
    (∀ o : ℚ, -1 ≤ o → o ≤ 1 →
      -(6 / 10) ≤ VehicleController.mk0.steerOf o ∧ VehicleController.mk0.steerOf o ≤ 6 / 10) := by
  refine ⟨?_, ?_, rfl, ?_, rfl, ?_, ?_, ?_⟩
  · simp [VehicleControllerNeuralNet.update, h, VehicleController.steerOf,
      VehicleController.forceOf]
  · norm_num [VehicleController.forceOf, VehicleController.mk0]
  · norm_num [VehicleController.forceOf, VehicleController.mk0]
  · intro a b hab
    simp only [VehicleController.forceOf, VehicleController.mk0]
    linarith
  · intro o h1 h2
    simp only [VehicleController.forceOf, VehicleController.mk0]
    constructor <;> linarith
  · intro o h1 h2
    simp only [VehicleController.steerOf, VehicleController.mk0]
    constructor <;> linarith

/-- Witness for C8: a network that answers `[1, -1]` makes the constructor's controller steer
by 0.6 and apply the reverse maximum. -/
theorem C8_actuation_mapping_witness :
    VehicleControllerNeuralNet.update VehicleController.mk0 (fun _ => some [1, -1]) [0, 0, 0] =
      some { steer := 6 / 10, force := -3000 } := by
  rw [(C8_actuation_mapping VehicleController.mk0 (fun _ => some [1, -1]) [0, 0, 0] [1, -1]
    rfl).1]
  decide!

/-! ## The cumulative-distance table -/

/-- The loop invariant of the accumulation after `m` iterations (indices `1 .. m`). -/
theorem accumulate_inv (sqrt : ℚ → ℚ) (segs : List btVector3) (d0 : List ℚ)
    (hlen : d0.length = segs.length) (h0 : d0[0]? = some 0) (m : Nat)
    (hm : m + 1 ≤ segs.length) :
    ((List.range' 1 m).foldl (distStep sqrt segs) (0, d0)).2.length = segs.length ∧
    ((List.range' 1 m).foldl (distStep sqrt segs) (0, d0)).2[m]? =
      some ((List.range' 1 m).foldl (distStep sqrt segs) (0, d0)).1 ∧
    ((List.range' 1 m).foldl (distStep sqrt segs) (0, d0)).2[0]? = some 0 ∧
    (∀ j, 1 ≤ j → j ≤ m →
      ((List.range' 1 m).foldl (distStep sqrt segs) (0, d0)).2[j]? =
        some ((((List.range' 1 m).foldl (distStep sqrt segs) (0, d0)).2[j - 1]?).getD 0 +
          ((segs.getD j ⟨0, 0, 0⟩).sub (segs.getD (j - 1) ⟨0, 0, 0⟩)).norm sqrt)) := by
  induction m with
  | zero =>
    refine ⟨by simpa using hlen, by simpa using h0, by simpa using h0, ?_⟩
    intro j h1 h2
    omega
  | succ m ih =>
    obtain ⟨ilen, iacc, izero, irec⟩ := ih (Nat.le_of_succ_le hm)
    rw [List.range'_1_concat, List.foldl_append]
    simp only [List.foldl_cons, List.foldl_nil]
    generalize (List.range' 1 m).foldl (distStep sqrt segs) (0, d0) = st at ilen iacc izero irec
    have hlt : 1 + m < st.2.length := by omega
    simp only [distStep]
    have hsub : 1 + m - 1 = m := by omega
    rw [hsub]
    have hidx : m + 1 = 1 + m := by omega
    refine ⟨by simpa using ilen, ?_, ?_, ?_⟩
    · rw [hidx, List.getElem?_set]
      simp [hlt]
    · rw [List.getElem?_set]
      have hne : ¬ (1 + m = 0) := by omega
      simp [hne, izero]
    · intro j h1 h2
      rw [List.getElem?_set, List.getElem?_set]
      by_cases hj : j = 1 + m
      · subst hj
        have hne : ¬ (1 + m = m) := by omega
        simp only [hsub, if_true, hlt, hne, if_false, iacc, Option.getD_some]
      · have hj1 : ¬ (1 + m = j) := fun h => hj h.symm
        have hj2 : ¬ (1 + m = j - 1) := by omega
        simp only [hj1, hj2, if_false]
        exact irec j h1 (by omega)

/-- The table `initTrack` builds from an empty table: right length, zero at index 0, and each
later entry is the previous entry plus the length of the step between the two waypoints. -/
theorem accumulateDist_spec (sqrt : ℚ → ℚ) (segs : List btVector3) :
    (accumulateDist sqrt segs []).length = segs.length ∧
    (segs ≠ [] → (accumulateDist sqrt segs []).getD 0 0 = 0) ∧
    (∀ i, 1 ≤ i → i < segs.length →
      (accumulateDist sqrt segs []).getD i 0 = (accumulateDist sqrt segs []).getD (i - 1) 0 +
        ((segs.getD i ⟨0, 0, 0⟩).sub (segs.getD (i - 1) ⟨0, 0, 0⟩)).norm sqrt) := by
  by_cases hn : segs.length = 0
  · have : segs = [] := List.length_eq_zero.mp hn
    subst this
    simp [accumulateDist, resize]
  · have hpos : 0 < segs.length := Nat.pos_of_ne_zero hn
    have hr : resize [] segs.length 0 = List.replicate segs.length (0 : ℚ) := by
      simp [resize]
    have hm : segs.length - 1 + 1 ≤ segs.length := by omega
    obtain ⟨ilen, _, izero, irec⟩ := accumulate_inv sqrt segs (List.replicate segs.length 0)
      (by simp) (by simp [hpos]) (segs.length - 1) hm
    unfold accumulateDist
    rw [hr]
    refine ⟨ilen, fun _ => by simp [izero], ?_⟩
    intro i h1 h2
    have hi1 : i - 1 < segs.length := by omega
    rw [List.getD_eq_getElem?_getD, List.getD_eq_getElem?_getD, irec i h1 (by omega)]
    simp

/-- A table that starts at 0 and grows by non-negative steps is non-negative and
non-decreasing. -/
theorem table_monotone (d : Nat → ℚ) (w : Nat → ℚ) (n : Nat) (h0 : 0 < n → d 0 = 0)
    (hrec : ∀ i, 1 ≤ i → i < n → d i = d (i - 1) + w i) (hw : ∀ i, 0 ≤ w i) :
    (∀ i j, i ≤ j → j < n → d i ≤ d j) ∧ (∀ i, i < n → 0 ≤ d i) := by
  have hstep : ∀ j, j + 1 < n → d j ≤ d (j + 1) := by
    intro j hj
    have := hrec (j + 1) (by omega) hj
    have hw1 := hw (j + 1)
    simp only [Nat.add_sub_cancel] at this
    linarith
  have hmono : ∀ i j, i ≤ j → j < n → d i ≤ d j := by
    intro i j hij
    induction j with
    | zero =>
      intro _
      have : i = 0 := by omega
      subst this
      exact le_refl _
    | succ j ih =>
      intro hj
      rcases Nat.lt_succ_iff_lt_or_eq.mp (Nat.lt_succ_of_le hij) with h | h
      · exact le_trans (ih (by omega) (by omega)) (hstep j hj)
      · subst h; exact le_refl _
  refine ⟨hmono, fun i hi => ?_⟩
  have := hmono 0 i (Nat.zero_le i) hi
  rw [h0 (by omega)] at this
  exact this

/-- C7: after `initTrack`, called as the constructor calls it (on an empty table), the
cumulative-distance table is as long as the waypoint list, `dist[0] = 0` when it is
non-empty, `dist[i] = dist[i-1] + |segment[i] - segment[i-1]|` for every `i ≥ 1`, and, the
norm being non-negative, the table is non-decreasing with non-negative entries. -/
theorem C7_cumulative_table (sqrt : ℚ → ℚ) (desc : Desc) (w h : Nat)
    (file : Option (List (Option btVector3))) (s : Simulation)
    (hs : s.m_trackSegmentDist = []) :
    (s.initTrack sqrt desc w h file).m_trackSegmentDist.length =
      (s.initTrack sqrt desc w h file).m_trackSegments.length ∧
    ((s.initTrack sqrt desc w h file).m_trackSegments ≠ [] →
      (s.initTrack sqrt desc w h file).track.dist 0 = 0) ∧
    (∀ i, 1 ≤ i → i < (s.initTrack sqrt desc w h file).m_trackSegments.length →
      (s.initTrack sqrt desc w h file).track.dist i =
        (s.initTrack sqrt desc w h file).track.dist (i - 1) +
          (((s.initTrack sqrt desc w h file).track.seg i).sub
            ((s.initTrack sqrt desc w h file).track.seg (i - 1))).norm sqrt) ∧
    ((∀ x, 0 ≤ sqrt x) →
      (∀ i j, i ≤ j → j < (s.initTrack sqrt desc w h file).m_trackSegments.length →
        (s.initTrack sqrt desc w h file).track.dist i ≤
          (s.initTrack sqrt desc w h file).track.dist j) ∧
      (∀ i, i < (s.initTrack sqrt desc w h file).m_trackSegments.length →
        0 ≤ (s.initTrack sqrt desc w h file).track.dist i)) := by
  cases file with
  | none =>
    simp [Simulation.initTrack, hs]
  | some lines =>
    obtain ⟨hlen, hzero, hrec⟩ := accumulateDist_spec sqrt
      ((lines.filterMap id).map (placeVertex desc w h)).reverse
    simp only [Simulation.initTrack, hs, Simulation.track, Track.dist, Track.seg]
    refine ⟨hlen, hzero, hrec, fun hnn => ?_⟩
    exact table_monotone _
      (fun i => ((((lines.filterMap id).map (placeVertex desc w h)).reverse.getD i
          ⟨0, 0, 0⟩).sub
        (((lines.filterMap id).map (placeVertex desc w h)).reverse.getD (i - 1)
          ⟨0, 0, 0⟩)).norm sqrt)
      _ (fun hp => hzero (List.ne_nil_of_length_pos hp)) hrec (fun i => hnn _)

/-- Witness for C7: three waypoints parsed from four lines give the table `[0, 1, 6]`. -/
theorem C7_cumulative_table_witness :
    (emptySim.initTrack sqrtQ ⟨1, 0⟩ 1 1 (some sampleLines)).m_trackSegmentDist = [0, 1, 6] ∧
    (emptySim.initTrack sqrtQ ⟨1, 0⟩ 1 1 (some sampleLines)).m_trackSegmentDist.length =
      (emptySim.initTrack sqrtQ ⟨1, 0⟩ 1 1 (some sampleLines)).m_trackSegments.length :=
  ⟨by decide!, (C7_cumulative_table sqrtQ ⟨1, 0⟩ 1 1 (some sampleLines) emptySim rfl).1⟩

/-! ## The generation transition -/

/-- After `ensureChromosomes`, chromosome `i` refers to vehicle `i` whenever that held before
or the population was still empty. -/
theorem ensureChromosomes_bound (s : Simulation)
    (hb : s.m_chromosomes = [] ∨
      s.m_chromosomes.map (fun c => c.vehicle) = List.range s.m_vehicles.length) :
    s.ensureChromosomes.m_vehicles = s.m_vehicles ∧
    s.ensureChromosomes.m_chromosomes.map (fun c => c.vehicle) =
      List.range s.m_vehicles.length := by
  unfold Simulation.ensureChromosomes
  by_cases he : s.m_chromosomes.isEmpty = true
  · simp only [he, if_true, List.map_map, true_and]
    exact List.map_id _
  · rcases hb with h | h
    · rw [h] at he
      exact absurd rfl he
    · simp only [he]
      exact ⟨rfl, h⟩

/-- The loop invariant of the summation after `k` iterations: the binding of chromosomes to
vehicles is kept and the running sum is the sum over the first `k` vehicles. -/
theorem sumDriven_inv (ext : Collaborators) (vs : List Vehicle) (cs : List Chromosome)
    (hb : cs.map (fun c => c.vehicle) = List.range vs.length) (k : Nat) (hk : k ≤ vs.length) :
    ((List.range k).foldl (avgStep ext vs) (0, cs)).2.map (fun c => c.vehicle) =
      List.range vs.length ∧
    ((List.range k).foldl (avgStep ext vs) (0, cs)).1 =
      ((vs.take k).map Vehicle.curTrackDistance).sum := by
  induction k with
  | zero => simpa using hb
  | succ k ih =>
    obtain ⟨ib, isum⟩ := ih (Nat.le_of_succ_le hk)
    have hkl : k < vs.length := hk
    rw [List.range_succ, List.foldl_append]
    simp only [List.foldl_cons, List.foldl_nil]
    generalize (List.range k).foldl (avgStep ext vs) (0, cs) = st at ib isum
    have hmap : (st.2.map (fun c => c.vehicle))[k]? = some k := by
      rw [ib]; exact List.getElem?_range hkl
    rw [List.getElem?_map] at hmap
    obtain ⟨c, hc, hcv⟩ := Option.map_eq_some'.mp hmap
    have hc2 : st.2.get? k = some c := by
      rw [List.get?_eq_getElem?]; exact hc
    have hv2 : vs.get? c.vehicle = some vs[k] := by
      rw [List.get?_eq_getElem?, hcv]; exact List.getElem?_eq_getElem hkl
    simp only [avgStep, hc2, hv2]
    constructor
    · rw [List.map_set, ib]
      apply List.ext_getElem?
      intro j
      rw [List.getElem?_set]
      by_cases hj : k = j
      · subst hj
        simp [hkl, hcv]
      · simp [hj]
    · have htk : vs.take (k + 1) = vs.take k ++ [vs[k]] := by
        rw [List.take_succ, List.getElem?_eq_getElem hkl]; rfl
      rw [isum, htk, List.map_append, List.sum_append]
      simp

/-- C10 (as stated) fails: one of two vehicles reached track distance 6.5 and was carried
back to 2.5 before it died, the other died at 2.5; `applyEvolution` writes the mean of the
current distances, 2.5, while the mean of the best distances is 4.5. -/
theorem C10_average_counterexample :
    returnedSim.m_vehicles.map Vehicle.bestTrackDistance = [13 / 2, 5 / 2] ∧
    returnedSim.m_vehicles.map Vehicle.curTrackDistance = [5 / 2, 5 / 2] ∧
    (returnedSim.applyEvolution stillWorld).m_avgDrivenDistance = 5 / 2 ∧
    (returnedSim.applyEvolution stillWorld).m_avgDrivenDistance ≠
      (returnedSim.m_vehicles.map Vehicle.bestTrackDistance).sum /
        (returnedSim.m_vehicles.length : ℚ) := by
  decide!

/-- C10 (amended): at a transition with a non-empty population whose chromosome `i` refers to
vehicle `i` (as created on first use), `applyEvolution` writes the population average as the
arithmetic mean over all vehicles of `curTrackDistance()`, the current track distance, and
that mean is the value `computeNewPopulation` finds when it is invoked.  (The population is
taken non-empty because only then is the rational quotient the one the source computes.) -/
theorem C10_average_of_current_distance (ext : Collaborators) (s : Simulation)
    (_hn : s.m_vehicles ≠ [])
    (hb : s.m_chromosomes = [] ∨
      s.m_chromosomes.map (fun c => c.vehicle) = List.range s.m_vehicles.length) :
    (s.applyEvolution ext).m_avgDrivenDistance =
      (s.m_vehicles.map Vehicle.curTrackDistance).sum / (s.m_vehicles.length : ℚ) ∧
    (s.applyEvolution ext).m_chromosomes =
      (ext.computeNewPopulation
        ((s.m_vehicles.map Vehicle.curTrackDistance).sum / (s.m_vehicles.length : ℚ))
        (s.ensureChromosomes.sumDriven ext).2 s.ensureChromosomes.m_chromosomesNext).2 ∧
    (s.applyEvolution ext).m_chromosomesNext =
      (ext.computeNewPopulation
        ((s.m_vehicles.map Vehicle.curTrackDistance).sum / (s.m_vehicles.length : ℚ))
        (s.ensureChromosomes.sumDriven ext).2 s.ensureChromosomes.m_chromosomesNext).1 := by
  obtain ⟨hvs, hbound⟩ := ensureChromosomes_bound s hb
  have hsum : (s.ensureChromosomes.sumDriven ext).1 =
      (s.m_vehicles.map Vehicle.curTrackDistance).sum := by
    unfold Simulation.sumDriven
    rw [hvs]
    rw [(sumDriven_inv ext s.m_vehicles s.ensureChromosomes.m_chromosomes hbound
      s.m_vehicles.length (le_refl _)).2, List.take_length]
  simp only [Simulation.applyEvolution, hsum, and_self]

/-- Witness for C10 (amended): the first transition of the two-vehicle population. -/
theorem C10_average_of_current_distance_witness :
    (returnedSim.applyEvolution stillWorld).m_avgDrivenDistance =
      (returnedSim.m_vehicles.map Vehicle.curTrackDistance).sum /
        (returnedSim.m_vehicles.length : ℚ) :=
  (C10_average_of_current_distance stillWorld returnedSim (by decide!) (Or.inl rfl)).1

/-! ## Claims about the controller's output range -/

/-- C11 fails on the code: under the comment "clamp to allowed values" the controller only
scales.  For the network output `[2, -2]` the constructor's controller hands the physics
vehicle the steering value 1.2, above `steerMax = 0.6`, and the engine force -7000, below
`engineForceRevMax = -3000`. -/
theorem C11_no_clamp_at_overdriven_output :
    VehicleControllerNeuralNet.update VehicleController.mk0 (fun _ => some overdrivenOutput)
        [0, 0, 0] = some { steer := 6 / 5, force := -7000 } ∧
    VehicleController.mk0.m_steerMax < 6 / 5 ∧
    (-7000 : ℚ) < VehicleController.mk0.m_engineForceRevMax := by
  decide!

/-! ## The progress invariant -/

/-- Entries of a non-negative table read through `Track.dist` are non-negative. -/
theorem dist_nonneg (t : Track) (hd : ∀ d, d ∈ t.distances → 0 ≤ d) (i : Nat) :
    0 ≤ t.dist i := by
  unfold Track.dist
  rw [List.getD_eq_getElem?_getD]
  cases h : t.distances[i]? with
  | none => simp
  | some d => simpa using hd d (List.getElem?_mem h)

/-- One tracker call keeps `0 ≤ cur ≤ best` for the segment and `0 ≤ cur` for the
distance. -/
theorem updateTrackPerformance_inv (sqrt : ℚ → ℚ) (t : Track) (v : Vehicle)
    (hd : ∀ d, d ∈ t.distances → 0 ≤ d)
    (h1 : 0 ≤ v.m_curSegment) (h2 : v.m_curSegment ≤ v.m_bestSegment)
    (h3 : 0 ≤ v.m_curDistance) :
    0 ≤ (v.updateTrackPerformance sqrt t).m_curSegment ∧
    (v.updateTrackPerformance sqrt t).m_curSegment ≤
      (v.updateTrackPerformance sqrt t).m_bestSegment ∧
    0 ≤ (v.updateTrackPerformance sqrt t).m_curDistance := by
  by_cases h : ∃ j, j < t.nsegs ∧ t.eligible sqrt v.origin j
  · obtain ⟨i, _, hel, _, _, hres⟩ := updateTrackPerformance_matched sqrt t v h
    rw [hres]
    refine ⟨Int.natCast_nonneg i, le_max_right _ _, ?_⟩
    have hp : 0 ≤ t.proj sqrt v.origin i := hel.2.1
    have hdi := dist_nonneg t hd i
    show 0 ≤ t.dist i + t.proj sqrt v.origin i
    linarith
  · have hno : ∀ j, j < t.nsegs → ¬ t.eligible sqrt v.origin j :=
      fun j hj hje => h ⟨j, hj, hje⟩
    rw [updateTrackPerformance_unmatched sqrt t v hno]
    exact ⟨h1, h2, h3⟩

/-- A run of tracker calls keeps the invariant, the alive flag and the birth time. -/
theorem trackRun_inv (sqrt : ℚ → ℚ) (t : Track) (hd : ∀ d, d ∈ t.distances → 0 ≤ d)
    (moves : List (btVector3 × btVector3)) (v : Vehicle)
    (h1 : 0 ≤ v.m_curSegment) (h2 : v.m_curSegment ≤ v.m_bestSegment)
    (h3 : 0 ≤ v.m_curDistance) :
    0 ≤ (v.trackRun sqrt t moves).m_curSegment ∧
    (v.trackRun sqrt t moves).m_curSegment ≤ (v.trackRun sqrt t moves).m_bestSegment ∧
    0 ≤ (v.trackRun sqrt t moves).m_curDistance ∧
    (v.trackRun sqrt t moves).m_alive = v.m_alive ∧
    (v.trackRun sqrt t moves).m_birthTime = v.m_birthTime := by
  induction moves generalizing v with
  | nil => exact ⟨h1, h2, h3, rfl, rfl⟩
  | cons m rest ih =>
    obtain ⟨k1, k2, k3⟩ := updateTrackPerformance_inv sqrt t (v.place m) hd h1 h2 h3
    obtain ⟨ka, kb⟩ := updateTrackPerformance_alive sqrt t (v.place m)
    obtain ⟨r1, r2, r3, r4, r5⟩ := ih ((v.place m).updateTrackPerformance sqrt t) k1 k2 k3
    refine ⟨r1, r2, r3, ?_, ?_⟩
    · exact r4.trans ka
    · exact r5.trans kb

/-- C12: from a freshly constructed vehicle, after any sequence of tracker calls over a
track whose cumulative-distance entries are non-negative, the current segment is at least 0
and at most the best segment and the current track distance is at least 0; hence at the
vehicle's next turn in `Simulation::update`, wherever physics has placed it, the segment
read by the check `curTrackSegment() < 0` is not negative and the vehicle dies in that turn
only through the timeout check. -/
theorem C12_progress_invariant (sqrt : ℚ → ℚ) (t : Track)
    (hd : ∀ d, d ∈ t.distances → 0 ≤ d) (origin vel : btVector3) (birth : ℚ)
    (moves : List (btVector3 × btVector3)) :
    0 ≤ ((Vehicle.mk0 origin vel birth).trackRun sqrt t moves).m_curSegment ∧
    ((Vehicle.mk0 origin vel birth).trackRun sqrt t moves).m_curSegment ≤
      ((Vehicle.mk0 origin vel birth).trackRun sqrt t moves).m_bestSegment ∧
    0 ≤ ((Vehicle.mk0 origin vel birth).trackRun sqrt t moves).m_curDistance ∧
    (∀ (m : btVector3 × btVector3) (now : ℚ),
      ¬ ((((Vehicle.mk0 origin vel birth).trackRun sqrt t moves).place m).update sqrt
          t).curTrackSegment < 0 ∧
      ((updateVehicle sqrt t now
          (((Vehicle.mk0 origin vel birth).trackRun sqrt t moves).place m)).m_alive = false ↔
        (now - birth > 20 ∧
          ((((Vehicle.mk0 origin vel birth).trackRun sqrt t moves).place m).update sqrt
            t).m_curSegment < 2))) := by
  obtain ⟨r1, r2, r3, r4, r5⟩ := trackRun_inv sqrt t hd moves (Vehicle.mk0 origin vel birth)
    (le_refl _) (le_refl _) (le_refl _)
  refine ⟨r1, r2, r3, ?_⟩
  intro m now
  have hnn := (updateTrackPerformance_inv sqrt t
    (((Vehicle.mk0 origin vel birth).trackRun sqrt t moves).place m) hd r1 r2 r3).1
  have hnot : ¬ ((((Vehicle.mk0 origin vel birth).trackRun sqrt t moves).place m).update sqrt
      t).curTrackSegment < 0 := not_lt.mpr hnn
  refine ⟨hnot, ?_⟩
  have ha : (((Vehicle.mk0 origin vel birth).trackRun sqrt t moves).place m).m_alive = true :=
    r4
  have hb : (((Vehicle.mk0 origin vel birth).trackRun sqrt t moves).place m).m_birthTime =
      birth := r5
  have hiff := (updateVehicle_alive_iff sqrt t now
    (((Vehicle.mk0 origin vel birth).trackRun sqrt t moves).place m) ha).2
  rw [hiff, hb]
  constructor
  · rintro (h | h)
    · exact absurd h hnot
    · exact h
  · exact fun h => Or.inr h

/-- Witness for C12: three tracker calls on the crossing track, whose table is
`[0, 2, 3, 4, 6, 7]`, leave the vehicle on segment 1 at distance 2.5 with best segment 4. -/
theorem C12_progress_invariant_witness :
    ((Vehicle.mk0 ⟨0, 1, 0⟩ ⟨0, 0, 0⟩ 0).trackRun sqrtQ crossingTrack sampleMoves).m_curSegment
      = 1 ∧
    ((Vehicle.mk0 ⟨0, 1, 0⟩ ⟨0, 0, 0⟩ 0).trackRun sqrtQ crossingTrack sampleMoves).m_bestSegment
      = 4 ∧
    0 ≤ ((Vehicle.mk0 ⟨0, 1, 0⟩ ⟨0, 0, 0⟩ 0).trackRun sqrtQ crossingTrack
      sampleMoves).m_curDistance :=
  ⟨by decide!, by decide!,
   (C12_progress_invariant sqrtQ crossingTrack (by decide!) ⟨0, 1, 0⟩ ⟨0, 0, 0⟩ 0
      sampleMoves).2.2.1⟩

end CarAI
